import Mathlib

/-!
Verification development for the onchain-receipt-card action-classification
core: the EVM classifier (src/app/classifiers/evm_classifier.py), the Solana
classifier (src/app/classifiers/solana_classifier.py), and the action
normalizer (src/app/classifiers/__init__.py), over the data model of
src/app/models/action.py.

Modelling conventions:
- Python dicts used as keyed records become structures with `Option` fields
  (or fields carrying the `dict.get` default) so that absent keys and `or`
  fallbacks are represented faithfully.
- Python dicts used as accumulators (`deltas`, `mint_deltas`, `pre_map`,
  `post_map`, `mint_decimals`) become insertion-ordered association lists:
  assignment updates in place when the key exists, else appends — exactly
  CPython dict semantics, which matter because the classifiers take
  `min`/`max` over dict iteration order.
- Python floats (Solana ui amounts) are modelled as ℚ; the arithmetic the
  claims touch (+, -, abs, comparisons against 1e-6 and 1.0) is exact at
  the model level.  `str(float)` is abstracted by `ratStr` (no claim
  depends on the rendered amount text).
- `int(s, 16)` is modelled by `hex_to_int`; for a string that is neither
  empty, nor "0x", nor valid hexadecimal, CPython would raise ValueError —
  the model returns 0 there, and no theorem depends on that case.
- Python `set(pre) | set(post)` iterates in an unspecified order; the model
  fixes the order to pre-keys then fresh post-keys.  All accumulation over
  it is commutative, so delta values do not depend on this choice.
-/

namespace OnchainReceipt

/-! ## Data model (src/app/models/action.py) -/

inductive ActionType where
  | swap
  | transfer
  | nft_transfer
  | mint
  | burn
  | approve
  | contract_call
  | overflow
  deriving DecidableEq, Repr

structure TokenInfo where
  address : String
  symbol : String := "Unknown"
  amount : String := "0"
  decimals : Int := 18
  deriving DecidableEq, Repr

structure NFTInfo where
  name : Option String := none
  collection : Option String := none
  token_id : Option String := none
  deriving DecidableEq, Repr

structure Action where
  type : ActionType
  primary : Bool := false
  token_in : Option TokenInfo := none
  token_out : Option TokenInfo := none
  protocol : Option String := none
  nft : Option NFTInfo := none
  spender : Option String := none
  to_ : Option String := none
  from_ : Option String := none
  count : Option Nat := none
  note : Option String := none
  deriving DecidableEq, Repr

/-! ## Python-dict and string helpers -/

/-- `a or b` on an optional string, with Python truthiness (`None` and `""`
are falsy). -/
def pyOr (a : Option String) (b : String) : String :=
  match a with
  | some s => if s = "" then b else s
  | none => b

/-- Truthiness of an optional string. -/
def pyTruthy (a : Option String) : Bool :=
  match a with
  | some s => s ≠ ""
  | none => false

/-- Insertion-ordered association-list lookup with default: `m.get(k, d)`. -/
def alGet {κ α : Type} [DecidableEq κ] (m : List (κ × α)) (k : κ) (d : α) : α :=
  match m.find? (fun p => decide (p.1 = k)) with
  | some p => p.2
  | none => d

/-- Insertion-ordered association-list assignment: `m[k] = v` (update in
place when present, else append — CPython dict semantics). -/
def alSet {κ α : Type} [DecidableEq κ] (m : List (κ × α)) (k : κ) (v : α) :
    List (κ × α) :=
  if m.any (fun p => decide (p.1 = k)) then
    m.map (fun p => if p.1 = k then (k, v) else p)
  else
    m ++ [(k, v)]

/-- `m.pop(k, default)` discarding the result: removal of a key. -/
def alPop {κ α : Type} [DecidableEq κ] (m : List (κ × α)) (k : κ) :
    List (κ × α) :=
  m.filter (fun p => decide (p.1 ≠ k))

/-- Key membership: `k in m`. -/
def alHasKey {κ α : Type} [DecidableEq κ] (m : List (κ × α)) (k : κ) : Bool :=
  m.any (fun p => decide (p.1 = k))

/-- `min(m, key=m.get)` over a nonempty dict: the first entry of minimal
value in iteration order (Python `min` keeps the earliest minimum). -/
def minByVal {κ : Type} {α : Type} [LinearOrder α] : List (κ × α) → Option (κ × α)
  | [] => none
  | p :: rest =>
    match minByVal rest with
    | none => some p
    | some q => if q.2 < p.2 then some q else some p

/-- `max(m, key=m.get)` over a nonempty dict: the first entry of maximal
value in iteration order (Python `max` keeps the earliest maximum). -/
def maxByVal {κ : Type} {α : Type} [LinearOrder α] : List (κ × α) → Option (κ × α)
  | [] => none
  | p :: rest =>
    match maxByVal rest with
    | none => some p
    | some q => if p.2 < q.2 then some q else some p

/-- Last `n` characters of a string: `s[-n:]` (whole string when shorter). -/
def lastChars (n : Nat) (s : String) : String :=
  String.mk (s.toList.drop (s.toList.length - n))

/-- `s[a:b]` for character indices `a ≤ b`. -/
def pySlice (s : String) (a b : Nat) : String :=
  String.mk ((s.toList.drop a).take (b - a))

/-- `s[:n]` -/
def pyTake (s : String) (n : Nat) : String :=
  String.mk (s.toList.take n)

/-- ASCII lowering of one character. -/
def charLower (c : Char) : Char :=
  if ('A' ≤ c ∧ c ≤ 'Z') then Char.ofNat (c.toNat + 32) else c

/-- `s.lower()`; the classifiers only lower hex strings and addresses, on
which CPython lowering is exactly ASCII lowering. -/
def pyLower (s : String) : String :=
  String.mk (s.toList.map charLower)

/-- Value of one hexadecimal digit. -/
def hexDigitVal (c : Char) : Option Nat :=
  if ('0' ≤ c ∧ c ≤ '9') then some (c.toNat - '0'.toNat)
  else if ('a' ≤ c ∧ c ≤ 'f') then some (c.toNat - 'a'.toNat + 10)
  else if ('A' ≤ c ∧ c ≤ 'F') then some (c.toNat - 'A'.toNat + 10)
  else none

/-- `int(s, 16)` on an unsigned hex numeral with optional `0x`/`0X` prefix;
`none` where CPython raises ValueError. -/
def pyIntHex (s : String) : Option Nat :=
  let cs := s.toList
  let digits :=
    match cs with
    | '0' :: 'x' :: rest => rest
    | '0' :: 'X' :: rest => rest
    | rest => rest
  if digits ≠ [] ∧ digits.all (fun c => (hexDigitVal c).isSome) then
    some (digits.foldl (fun acc c => 16 * acc + (hexDigitVal c).getD 0) 0)
  else
    none

/-- Stand-in for CPython float formatting `str(x)`; no theorem depends on
the rendered text, only on it being some string. -/
def ratStr (q : ℚ) : String := toString q

/-! ## EVM classifier (src/app/classifiers/evm_classifier.py) -/

-- Event topic signatures
def ERC20_TRANSFER : String :=
  "0xddf252ad1be2c89b69c2b068fc378daa952ba7f163c4a11628f55a4df523b3ef"

def ERC721_TRANSFER : String := ERC20_TRANSFER

def APPROVAL : String :=
  "0x8c5be1e5ebec7d5bd14f71427d1e84f3dd0314c0f7b2291e5b200ac8c7c3b925"

def ERC1155_TRANSFER_SINGLE : String :=
  "0xc3d58168c5ae7397731d063d5bbf3d657854427343f4c083240f7aacaa2d0f62"

def WETH_DEPOSIT : String :=
  "0xe1fffcc4923d04b559f4d29a8bfc6cda04eb5b0d3c460751c2402c5c5cc9109c"

def WETH_WITHDRAWAL : String :=
  "0x7fcf532c15f0a6db0bd6d0e038bea71d30d808c7d98cb3bf7268a95bf5081b65"

def WETH_ADDRESSES : List String :=
  ["0x4200000000000000000000000000000000000006"]

def KNOWN_ROUTERS : List (String × String) :=
  [("0x2626664c2603336e57b271c5c0b26f421741e481", "Uniswap V3"),
   ("0x3fc91a3afd70395cd496c647d5a6cc9d4b2b7fad", "Uniswap Universal Router"),
   ("0xcf77a3ba9a5ca399b7c97c74d54e5b1beb874e43", "Aerodrome"),
   ("0x111111125421ca6dc452d289314280a0f8842a65", "1inch"),
   ("0x1111111254eeb25477b68fb85ed929f73a960582", "1inch")]

def MULTICALL_SELECTOR : String := "0xac9650d8"

/-- `_decode_address`: low 20 bytes (last 40 hex chars) of a topic,
lowercased, with `0x` prefix. -/
def decode_address (topic_hex : String) : String :=
  "0x" ++ pyLower (lastChars 40 topic_hex)

/-- `_hex_to_int`: empty or bare `0x` decodes to 0. -/
def hex_to_int (hex_str : String) : Int :=
  if hex_str = "" ∨ hex_str = "0x" then 0
  else ((pyIntHex hex_str).getD 0 : Int)

/-! ### Input shape

A raw provider bundle is a Python dict; both classifiers read it through
their own keys (`transaction`/`receipt` for EVM, `transaction.message` and
`meta` for Solana), so one structure carries all of them.  `get(..., {})`
and `get(...) or {}` both normalize a missing sub-object to the default
structure value. -/

structure EvmLog where
  /-- `log.get("topics", [])`; a falsy (None/empty) topic is modelled by `""`. -/
  topics : List String := []
  /-- `(log.get("address") or "")` pre-normalised to a string. -/
  address : String := ""
  /-- `log.get("data", "0x")`. -/
  data : String := "0x"
  deriving DecidableEq, Repr

structure EvmReceipt where
  logs : List EvmLog := []
  contractAddress : Option String := none
  from_ : Option String := none
  to_ : Option String := none
  deriving DecidableEq, Repr

/-- One Solana account key: raw string or object carrying `pubkey`. -/
inductive AccountKey where
  | str (s : String)
  | obj (pubkey : String)
  deriving DecidableEq, Repr

/-- `key["pubkey"] if isinstance(key, dict) else str(key)` -/
def resolveKey : AccountKey → String
  | .str s => s
  | .obj p => p

structure SolInstruction where
  /-- `ix.get("programId", "")` -/
  programId : String := ""
  deriving DecidableEq, Repr

structure SolMessage where
  accountKeys : List AccountKey := []
  instructions : List SolInstruction := []
  deriving DecidableEq, Repr

structure UiTokenAmount where
  /-- `ui_amount.get("uiAmount")`, may be null; `or 0` applies at use. -/
  uiAmount : Option ℚ := none
  /-- `ui_amount.get("decimals", 0)` -/
  decimals : Int := 0
  deriving DecidableEq, Repr

structure TokenBalance where
  /-- `entry.get("owner", "")` -/
  owner : String := ""
  /-- `entry.get("accountIndex", d)` — the default differs per use site. -/
  accountIndex : Option Int := none
  /-- `entry.get("mint", "")` -/
  mint : String := ""
  /-- `entry.get("uiTokenAmount", {})` -/
  uiTokenAmount : UiTokenAmount := {}
  deriving DecidableEq, Repr

structure SolMeta where
  preTokenBalances : List TokenBalance := []
  postTokenBalances : List TokenBalance := []
  preBalances : List Int := []
  postBalances : List Int := []
  fee : Int := 0
  deriving DecidableEq, Repr

structure TxData where
  -- EVM transaction fields
  from_ : Option String := none
  to_ : Option String := none
  /-- `tx_data.get("value", "0x0")` -/
  value : String := "0x0"
  /-- `tx_data.get("input", "0x")` -/
  input : String := "0x"
  -- Solana message (`raw_tx["transaction"]["message"]`)
  message : SolMessage := {}
  deriving DecidableEq, Repr

structure RawTx where
  /-- `raw_tx.get("transaction") or {}` / `raw_tx.get("transaction", {})` -/
  transaction : TxData := {}
  /-- `raw_tx.get("receipt") or {}` -/
  receipt : EvmReceipt := {}
  /-- `raw_tx.get("meta", {})` -/
  meta : SolMeta := {}
  deriving DecidableEq, Repr

/-- `_identify_protocol` (EVM): look up the lowercased `to` address. -/
def identify_protocol_evm (tx : TxData) : Option String :=
  (KNOWN_ROUTERS.find? (fun p => decide (p.1 = pyLower (pyOr tx.to_ "")))).map (·.2)

/-- `(tx_data.get("from") or receipt.get("from") or "").lower()` -/
def evmUser (raw : RawTx) : String :=
  pyLower (pyOr raw.transaction.from_ (pyOr raw.receipt.from_ ""))

/-- Mutable state of the single log-scan pass. -/
structure EvmScanState where
  deltas : List (String × Int) := []
  nft_actions : List Action := []
  approval_actions : List Action := []
  weth_net_delta : Int := 0
  deriving DecidableEq, Repr

/-- One iteration of the `for log in logs` loop of `classify_evm_actions`. -/
def evmStep (user : String) (protocol : Option String)
    (st : EvmScanState) (log : EvmLog) : EvmScanState :=
  -- `if not topics: continue`
  if log.topics = [] then st
  else
    let topic0 := log.topics.getD 0 ""
    let event_sig := if topic0 ≠ "" then pyLower topic0 else ""
    let contract := pyLower log.address
    -- WETH Deposit/Withdrawal: fold into native ETH
    if contract ∈ WETH_ADDRESSES ∧ event_sig = WETH_DEPOSIT ∧
        log.topics.length ≥ 2 then
      let depositor := decode_address (log.topics.getD 1 "")
      let amount := hex_to_int log.data
      if depositor = user then
        { st with weth_net_delta := st.weth_net_delta - amount }
      else st
    else if contract ∈ WETH_ADDRESSES ∧ event_sig = WETH_WITHDRAWAL ∧
        log.topics.length ≥ 2 then
      let withdrawer := decode_address (log.topics.getD 1 "")
      let amount := hex_to_int log.data
      if withdrawer = user then
        { st with weth_net_delta := st.weth_net_delta + amount }
      else st
    -- ERC721 Transfer (3 indexed topics: from, to, tokenId)
    else if event_sig = ERC721_TRANSFER ∧ log.topics.length = 4 then
      let from_addr := decode_address (log.topics.getD 1 "")
      let to_addr := decode_address (log.topics.getD 2 "")
      let token_id := toString (hex_to_int (log.topics.getD 3 ""))
      if from_addr = user ∨ to_addr = user then
        { st with nft_actions := st.nft_actions ++
          [{ type := .nft_transfer,
             nft := some { token_id := some token_id },
             from_ := some from_addr,
             to_ := some to_addr,
             token_in :=
               if from_addr = user then
                 some { address := contract, symbol := "NFT #" ++ token_id,
                        amount := "1", decimals := 0 }
               else none,
             token_out :=
               if to_addr = user then
                 some { address := contract, symbol := "NFT #" ++ token_id,
                        amount := "1", decimals := 0 }
               else none,
             protocol := protocol }] }
      else st
    -- ERC1155 TransferSingle
    else if event_sig = ERC1155_TRANSFER_SINGLE ∧ log.topics.length ≥ 4 then
      let from_addr := decode_address (log.topics.getD 2 "")
      let to_addr := decode_address (log.topics.getD 3 "")
      let token_id :=
        if log.data.toList.length ≥ 130 then
          toString (hex_to_int ("0x" ++ pySlice log.data 2 66))
        else "0"
      let amount : Int :=
        if log.data.toList.length ≥ 130 then
          hex_to_int ("0x" ++ pySlice log.data 66 130)
        else 1
      if from_addr = user ∨ to_addr = user then
        { st with nft_actions := st.nft_actions ++
          [{ type := .nft_transfer,
             nft := some { token_id := some token_id },
             from_ := some from_addr,
             to_ := some to_addr,
             token_in :=
               if from_addr = user then
                 some { address := contract, symbol := "NFT #" ++ token_id,
                        amount := toString amount, decimals := 0 }
               else none,
             token_out :=
               if to_addr = user then
                 some { address := contract, symbol := "NFT #" ++ token_id,
                        amount := toString amount, decimals := 0 }
               else none,
             protocol := protocol }] }
      else st
    -- ERC20 Transfer (2 indexed topics: from, to; data = amount)
    else if event_sig = ERC20_TRANSFER ∧ log.topics.length = 3 then
      let from_addr := decode_address (log.topics.getD 1 "")
      let to_addr := decode_address (log.topics.getD 2 "")
      let amount := hex_to_int log.data
      let d1 :=
        if from_addr = user then
          alSet st.deltas contract (alGet st.deltas contract 0 - amount)
        else st.deltas
      let d2 :=
        if to_addr = user then
          alSet d1 contract (alGet d1 contract 0 + amount)
        else d1
      { st with deltas := d2 }
    -- Approval
    else if event_sig = APPROVAL ∧ log.topics.length ≥ 3 then
      let owner := decode_address (log.topics.getD 1 "")
      let spender := decode_address (log.topics.getD 2 "")
      if owner = user then
        { st with approval_actions := st.approval_actions ++
          [{ type := .approve,
             spender := some spender,
             token_in := some { address := contract, amount := "0" } }] }
      else st
    else st

/-- The whole log-scan pass. -/
def evmScan (user : String) (protocol : Option String)
    (logs : List EvmLog) : EvmScanState :=
  logs.foldl (evmStep user protocol) {}

/-- Native-asset folding: raw value sent, the wrap/unwrap net, and leftover
wrapped-native ERC20 deltas are merged into `native_eth`. -/
def evmFoldNative (tx : TxData) (st : EvmScanState) : List (String × Int) :=
  let native_sent := hex_to_int tx.value
  let native_delta := -native_sent + st.weth_net_delta
  let folded := WETH_ADDRESSES.foldl
    (fun (acc : List (String × Int) × Int) weth_addr =>
      (alPop acc.1 weth_addr, acc.2 + alGet acc.1 weth_addr 0))
    (st.deltas, native_delta)
  if folded.2 ≠ 0 then alSet folded.1 "native_eth" folded.2 else folded.1

/-- The post-folding net delta map of an EVM bundle. -/
def evmDeltas (raw : RawTx) : List (String × Int) :=
  evmFoldNative raw.transaction
    (evmScan (evmUser raw) (identify_protocol_evm raw.transaction)
      raw.receipt.logs)

def evmNegative (raw : RawTx) : List (String × Int) :=
  (evmDeltas raw).filter (fun p => decide (p.2 < 0))

def evmPositive (raw : RawTx) : List (String × Int) :=
  (evmDeltas raw).filter (fun p => decide (0 < p.2))

/-- Contract-creation short-circuit condition:
`receipt.get("contractAddress")` truthy and `tx_data.get("to")` falsy. -/
def evmIsCreation (raw : RawTx) : Bool :=
  pyTruthy raw.receipt.contractAddress ∧ ¬ pyTruthy raw.transaction.to_

/-- `classify_evm_actions` -/
def classify_evm_actions (raw : RawTx) : List Action :=
  let tx_data := raw.transaction
  let receipt := raw.receipt
  let user := evmUser raw
  if user = "" then []
  else if evmIsCreation raw then
    [{ type := .contract_call,
       note := some ("Contract Deployed: " ++
         (match receipt.contractAddress with | some s => s | none => "")),
       from_ := some user,
       to_ := receipt.contractAddress }]
  else
    let protocol := identify_protocol_evm tx_data
    let st := evmScan user protocol receipt.logs
    let negative_deltas := evmNegative raw
    let positive_deltas := evmPositive raw
    let fungible : List Action :=
      match minByVal negative_deltas, maxByVal positive_deltas with
      | some pin, some pout =>
        [{ type := .swap,
           token_in := some
             { address := if pin.1 ≠ "native_eth" then pin.1 else "native",
               amount := toString pin.2.natAbs },
           token_out := some
             { address := if pout.1 ≠ "native_eth" then pout.1 else "native",
               amount := toString pout.2 },
           protocol := protocol }]
      | some _, none =>
        negative_deltas.map (fun p =>
          { type := .transfer,
            token_in := some
              { address := if p.1 ≠ "native_eth" then p.1 else "native",
                amount := toString p.2.natAbs },
            to_ := some (pyOr tx_data.to_ (pyOr receipt.to_ "")),
            from_ := some user,
            protocol := protocol })
      | none, some _ =>
        positive_deltas.map (fun p =>
          { type := .transfer,
            token_out := some
              { address := if p.1 ≠ "native_eth" then p.1 else "native",
                amount := toString p.2 },
            to_ := some user,
            protocol := protocol })
      | none, none => []
    -- NFT actions come next; approvals last (both branches of the source's
    -- final `if` just extend with approval_actions)
    let actions := fungible ++ st.nft_actions ++ st.approval_actions
    if actions = [] then
      let input_data := tx_data.input
      let selector :=
        if input_data.toList.length ≥ 10 then pyTake input_data 10
        else input_data
      if selector = MULTICALL_SELECTOR then
        let data_len := (input_data.toList.length - 10) / 2
        let estimated_calls := max 1 (data_len / 68)
        [{ type := .contract_call,
           note := some ("Batch: ~" ++ toString estimated_calls ++ " calls"),
           to_ := tx_data.to_,
           protocol := protocol }]
      else
        [{ type := .contract_call,
           note := some ("Function: " ++ selector),
           to_ := tx_data.to_ }]
    else actions

/-! ## Solana classifier (src/app/classifiers/solana_classifier.py) -/

def VOTE_PROGRAM : String := "Vote111111111111111111111111111111111111111"

def KNOWN_PROGRAMS : List (String × String) :=
  [("JUP6LkbZbjS1jKKwapdHNy74zcZ3tLUZoi5QNyVTaV4", "Jupiter"),
   ("JUP4Fb2cqiRUcaTHdrPC8h2gNsA2ETXiPDD33WcGuJB", "Jupiter"),
   ("675kPX9MHTjS2zt1qfr1NYHuzeLXfQM9H24wFSUt1Mp8", "Raydium"),
   ("CAMMCzo5YL8w4VFF8KVHrK22GGUsp5VTaW7grrKgrWqK", "Raydium CLMM"),
   ("whirLbMiicVdio4qvUfM5KAg6Ct8VwpYzGff3uctyCc", "Orca Whirlpool"),
   ("9W959DqEETiGZocYWCQPaJ6sBmUzgfxXfqGeTEdp3aQP", "Orca"),
   ("MERLuDFBMmsHnsBPZw2sDQZHvXFMwp8EdjudcU2HKky", "Mercurial"),
   ("SSwpkEEcbUqx4vtoEByFjSkhKdCT862DNVb52nZg1UZ", "Saber"),
   ("PhoeNiXZ8ByJGLkxNfZRnkUfjvmuYqLR89jjFHGqdXY", "Phoenix")]

/-- The dust threshold literal `0.000001` of the source. -/
def DUST : ℚ := 1 / 1000000

/-- `_get_signer`: first account key, or `""`. -/
def solSigner (raw : RawTx) : String :=
  match raw.transaction.message.accountKeys with
  | [] => ""
  | first :: _ => resolveKey first

/-- `_identify_protocol` (Solana): account keys first, then instruction
program ids; first match in a static table wins. -/
def identify_protocol_sol (raw : RawTx) : Option String :=
  let message := raw.transaction.message
  match message.accountKeys.findSome?
      (fun key => (KNOWN_PROGRAMS.find?
        (fun p => decide (p.1 = resolveKey key))).map (·.2)) with
  | some name => some name
  | none =>
    message.instructions.findSome?
      (fun ix => (KNOWN_PROGRAMS.find?
        (fun p => decide (p.1 = ix.programId))).map (·.2))

/-- `_is_vote_transaction` -/
def is_vote_transaction (raw : RawTx) : Bool :=
  let message := raw.transaction.message
  message.accountKeys.any (fun key => decide (resolveKey key = VOTE_PROGRAM)) ∨
    message.instructions.any (fun ix => decide (ix.programId = VOTE_PROGRAM))

/-- `_get_owner`: explicit `owner` field, else resolve `accountIndex`
(default −1) through the account-key list. -/
def solGetOwner (account_keys : List AccountKey) (e : TokenBalance) : String :=
  if e.owner ≠ "" then e.owner
  else
    let idx := e.accountIndex.getD (-1)
    if 0 ≤ idx ∧ idx < (account_keys.length : Int) then
      match account_keys[idx.toNat]? with
      | some key => resolveKey key
      | none => ""
    else ""

/-- One snapshot-ingestion loop (`for entry in pre_balances` /
`post_balances`): fills a `(accountIndex, mint) ↦ uiAmount` map and updates
the shared `mint_decimals` map. -/
def solIngest (signer : String) (account_keys : List AccountKey)
    (entries : List TokenBalance)
    (init : List ((Int × String) × ℚ) × List (String × Int)) :
    List ((Int × String) × ℚ) × List (String × Int) :=
  entries.foldl
    (fun maps e =>
      let owner := solGetOwner account_keys e
      if owner ≠ signer then maps
      else
        let mint := e.mint
        let amount := (e.uiTokenAmount.uiAmount.getD 0 : ℚ)
        let decimals := e.uiTokenAmount.decimals
        let idx := e.accountIndex.getD 0
        (alSet maps.1 (idx, mint) amount, alSet maps.2 mint decimals))
    init

/-- `pre_map` for the signer. -/
def solPreMap (raw : RawTx) : List ((Int × String) × ℚ) :=
  (solIngest (solSigner raw) raw.transaction.message.accountKeys
    raw.meta.preTokenBalances ([], [])).1

/-- `pre_map`-stage `mint_decimals`. -/
def solPreDecimals (raw : RawTx) : List (String × Int) :=
  (solIngest (solSigner raw) raw.transaction.message.accountKeys
    raw.meta.preTokenBalances ([], [])).2

/-- `post_map` for the signer. -/
def solPostMap (raw : RawTx) : List ((Int × String) × ℚ) :=
  (solIngest (solSigner raw) raw.transaction.message.accountKeys
    raw.meta.postTokenBalances ([], solPreDecimals raw)).1

/-- `mint_decimals` after both ingestion loops. -/
def solMintDecimals (raw : RawTx) : List (String × Int) :=
  (solIngest (solSigner raw) raw.transaction.message.accountKeys
    raw.meta.postTokenBalances ([], solPreDecimals raw)).2

/-- `all_keys = set(pre_map) | set(post_map)`; Python set iteration order is
unspecified, the model fixes it to pre keys then fresh post keys (all uses
are commutative accumulations, so values are order-independent). -/
def solAllKeys (raw : RawTx) : List (Int × String) :=
  let preKeys := (solPreMap raw).map (·.1)
  let postKeys := (solPostMap raw).map (·.1)
  preKeys ++ postKeys.filter (fun k => decide (k ∉ preKeys))

/-- `post_map.get(key, 0.0) - pre_map.get(key, 0.0)`: the contribution of
one `(accountIndex, mint)` pair to its mint's delta. -/
def solKeyDelta (raw : RawTx) (key : Int × String) : ℚ :=
  alGet (solPostMap raw) key 0 - alGet (solPreMap raw) key 0

/-- Per-mint delta accumulation over `all_keys`. -/
def solMintDeltas (raw : RawTx) : List (String × ℚ) :=
  (solAllKeys raw).foldl
    (fun md key =>
      alSet md key.2 (alGet md key.2 0 + solKeyDelta raw key))
    []

/-- Native SOL delta: `(postBalances[0] - preBalances[0] + fee) / 1e9` when
both balance arrays are nonempty, else 0. -/
def solNativeDelta (raw : RawTx) : ℚ :=
  let pre := raw.meta.preBalances
  let post := raw.meta.postBalances
  if pre ≠ [] ∧ post ≠ [] then
    (((post.headD 0 - pre.headD 0 + raw.meta.fee : Int) : ℚ)) / 1000000000
  else 0

/-- The `nft_transfer` action built for one NFT mint (direction by the
sign of the delta). -/
def solNftAction (signer : String) (protocol : Option String)
    (mint : String) (delta : ℚ) : Action :=
  { type := .nft_transfer,
    token_in :=
      if delta < 0 then
        some { address := mint, symbol := "NFT", amount := "1",
               decimals := 0 }
      else none,
    token_out :=
      if delta > 0 then
        some { address := mint, symbol := "NFT", amount := "1",
               decimals := 0 }
      else none,
    from_ := if delta < 0 then some signer else none,
    to_ := if delta > 0 then some signer else none,
    protocol := protocol }

/-- One iteration of the NFT pull-out loop: a mint with `decimals == 0`
and `abs(delta) == 1.0` joins `nft_mints` and appends its action. -/
def solNftStep (signer : String) (protocol : Option String)
    (mint_decimals : List (String × Int))
    (acc : List String × List Action) (p : String × ℚ) :
    List String × List Action :=
  let decimals := alGet mint_decimals p.1 0
  if decimals = 0 ∧ |p.2| = 1 then
    (acc.1 ++ [p.1], acc.2 ++ [solNftAction signer protocol p.1 p.2])
  else acc

/-- The NFT pull-out pass over `list(mint_deltas.items())`. -/
def solNftPass (signer : String) (protocol : Option String)
    (mint_decimals : List (String × Int)) (mint_deltas : List (String × ℚ)) :
    List String × List Action :=
  mint_deltas.foldl (solNftStep signer protocol mint_decimals) ([], [])

def solNftMints (raw : RawTx) : List String :=
  (solNftPass (solSigner raw) (identify_protocol_sol raw)
    (solMintDecimals raw) (solMintDeltas raw)).1

def solNftActions (raw : RawTx) : List Action :=
  (solNftPass (solSigner raw) (identify_protocol_sol raw)
    (solMintDecimals raw) (solMintDeltas raw)).2

/-- `mint_deltas` after popping the NFT mints. -/
def solDeltasAfterNft (raw : RawTx) : List (String × ℚ) :=
  (solMintDeltas raw).filter (fun p => decide (p.1 ∉ solNftMints raw))

/-- The final Solana delta map: native SOL added under `native_sol` when
its magnitude clears the dust threshold. -/
def solDeltasFinal (raw : RawTx) : List (String × ℚ) :=
  if |solNativeDelta raw| > DUST then
    alSet (solDeltasAfterNft raw) "native_sol" (solNativeDelta raw)
  else solDeltasAfterNft raw

/-- `negative = {k: v for k, v in mint_deltas.items() if v < -0.000001}` -/
def solNegative (raw : RawTx) : List (String × ℚ) :=
  (solDeltasFinal raw).filter (fun p => decide (p.2 < -DUST))

/-- `positive = {k: v for k, v in mint_deltas.items() if v > 0.000001}` -/
def solPositive (raw : RawTx) : List (String × ℚ) :=
  (solDeltasFinal raw).filter (fun p => decide (p.2 > DUST))

/-- `classify_solana_actions` -/
def classify_solana_actions (raw : RawTx) : List Action :=
  let signer := solSigner raw
  if signer = "" then []
  else if is_vote_transaction raw then
    [{ type := .contract_call, note := some "Validator Vote",
       from_ := some signer }]
  else
    let protocol := identify_protocol_sol raw
    let mint_decimals := solMintDecimals raw
    let negative := solNegative raw
    let positive := solPositive raw
    let fungible : List Action :=
      match minByVal negative, maxByVal positive with
      | some pin, some pout =>
        [{ type := .swap,
           token_in := some
             { address := if pin.1 ≠ "native_sol" then pin.1 else "native",
               amount := ratStr |pin.2|,
               decimals := alGet mint_decimals pin.1 9 },
           token_out := some
             { address := if pout.1 ≠ "native_sol" then pout.1 else "native",
               amount := ratStr pout.2,
               decimals := alGet mint_decimals pout.1 9 },
           protocol := protocol }]
      | some _, none =>
        negative.map (fun p =>
          { type := .transfer,
            token_in := some
              { address := if p.1 ≠ "native_sol" then p.1 else "native",
                amount := ratStr |p.2|,
                decimals := alGet mint_decimals p.1 9 },
            from_ := some signer,
            protocol := protocol })
      | none, some _ =>
        positive.map (fun p =>
          { type := .transfer,
            token_out := some
              { address := if p.1 ≠ "native_sol" then p.1 else "native",
                amount := ratStr p.2,
                decimals := alGet mint_decimals p.1 9 },
            to_ := some signer,
            protocol := protocol })
      | none, none => []
    let actions := fungible ++ solNftActions raw
    if actions = [] then
      [{ type := .contract_call, protocol := protocol }]
    else actions

/-! ## Action normalizer (src/app/classifiers/__init__.py) -/

def MAX_DISPLAY_ACTIONS : Nat := 5

/-- `actions[0].primary = True` -/
def markFirstPrimary : List Action → List Action
  | [] => []
  | a :: rest => { a with primary := true } :: rest

/-- The post-dispatch part of `normalize_actions`: empty-list fallback,
primary marking, and display truncation. -/
def normalizePost (actions : List Action) : List Action :=
  if actions = [] then [{ type := .contract_call, primary := true }]
  else
    let actions := markFirstPrimary actions
    if actions.length > MAX_DISPLAY_ACTIONS then
      let overflow_count := actions.length - MAX_DISPLAY_ACTIONS + 1
      actions.take (MAX_DISPLAY_ACTIONS - 1) ++
        [{ type := .overflow,
           count := some overflow_count,
           note := some ("and " ++ toString overflow_count ++
             " more actions...") }]
    else actions

/-- `normalize_actions` -/
def normalize_actions (raw_tx : RawTx) (chain : String) : List Action :=
  if chain = "base" then normalizePost (classify_evm_actions raw_tx)
  else if chain = "solana" then normalizePost (classify_solana_actions raw_tx)
  else [{ type := .contract_call, primary := true }]

/-! ## Concrete bundles used by witnesses and counterexamples

Each claim gets its own inputs so that no two claims share definitions. -/

-- C1: an EVM bundle that swaps native for an ERC20, and a Solana bundle
-- that swaps one mint for another.
def wC1log : EvmLog :=
  { topics := [ERC20_TRANSFER, "ff", "ab"], address := "c1", data := "0x2" }

def wC1evm : RawTx :=
  { transaction := { from_ := some "0xab", value := "0x5" },
    receipt := { logs := [wC1log] } }

def wC1pre : TokenBalance :=
  { owner := "ME", accountIndex := some 0, mint := "M1",
    uiTokenAmount := { uiAmount := some 5, decimals := 6 } }

def wC1post : TokenBalance :=
  { owner := "ME", accountIndex := some 1, mint := "M2",
    uiTokenAmount := { uiAmount := some 3, decimals := 6 } }

def wC1sol : RawTx :=
  { transaction := { message := { accountKeys := [.str "ME"] } },
    meta := { preTokenBalances := [wC1pre], postTokenBalances := [wC1post] } }

-- C2: an EVM bundle whose classifier output has six transfer actions.
def wC2log (c : String) : EvmLog :=
  { topics := [ERC20_TRANSFER, "ff", "ab"], address := c, data := "0x1" }

def wC2raw : RawTx :=
  { transaction := { from_ := some "0xab" },
    receipt := { logs := [wC2log "c1", wC2log "c2", wC2log "c3",
      wC2log "c4", wC2log "c5", wC2log "c6"] } }

-- C4: a Solana bundle with a single mint delta of 1e-5.
def wC4tb : TokenBalance :=
  { owner := "ME", accountIndex := some 0, mint := "M1",
    uiTokenAmount := { uiAmount := some (1/100000), decimals := 6 } }

def wC4raw : RawTx :=
  { transaction := { message := { accountKeys := [.str "ME"] } },
    meta := { postTokenBalances := [wC4tb] } }

-- C5: a decimals-0 mint with delta 7/10 (rounds to 1 but is not exactly 1),
-- and a decimals-0 mint with delta exactly 1.
def wC5tb : TokenBalance :=
  { owner := "ME", accountIndex := some 0, mint := "M1",
    uiTokenAmount := { uiAmount := some (7/10), decimals := 0 } }

def wC5cex : RawTx :=
  { transaction := { message := { accountKeys := [.str "ME"] } },
    meta := { postTokenBalances := [wC5tb] } }

def wC5tb1 : TokenBalance :=
  { owner := "ME", accountIndex := some 0, mint := "M1",
    uiTokenAmount := { uiAmount := some 1, decimals := 0 } }

def wC5nft : RawTx :=
  { transaction := { message := { accountKeys := [.str "ME"] } },
    meta := { postTokenBalances := [wC5tb1] } }

-- C6: an EVM bundle that swaps native for an ERC20.
def wC6log : EvmLog :=
  { topics := [ERC20_TRANSFER, "ff", "ab"], address := "c1", data := "0x2" }

def wC6raw : RawTx :=
  { transaction := { from_ := some "0xab", value := "0x5" },
    receipt := { logs := [wC6log] } }

def wC6tokIn : TokenInfo :=
  { address := "native", symbol := "Unknown", amount := "5", decimals := 18 }

def wC6tokOut : TokenInfo :=
  { address := "c1", symbol := "Unknown", amount := "2", decimals := 18 }

def wC6dep : EvmLog :=
  { topics := [WETH_DEPOSIT, "ab"],
    address := "0x4200000000000000000000000000000000000006", data := "0x5" }

def wC6wd : EvmLog :=
  { topics := [WETH_WITHDRAWAL, "ab"],
    address := "0x4200000000000000000000000000000000000006", data := "0x5" }

def wC6act : Action :=
  { type := .swap, token_in := some wC6tokIn, token_out := some wC6tokOut,
    protocol := none }

-- C6: an unrelated ERC20 log sitting between the deposit and the withdrawal.
def wC6mid : EvmLog :=
  { topics := [ERC20_TRANSFER, "cc", "ab"], address := "c9", data := "0x3" }

-- C7: a log with no topics.
def wC7log : EvmLog := { topics := [] }

def wC7raw : RawTx :=
  { transaction := { from_ := some "0xab" },
    receipt := { logs := [wC7log] } }

-- C8: a bundle whose only trace of the Vote program is an instruction
-- program id, with no account keys at all; and a votable bundle.
def wC8ix : SolInstruction := { programId := VOTE_PROGRAM }

def wC8cex : RawTx :=
  { transaction := { message := { accountKeys := [], instructions := [wC8ix] } } }

def wC8vote : RawTx :=
  { transaction := { message :=
      { accountKeys := [.str "ME", .str VOTE_PROGRAM] } },
    meta := { preBalances := [100], postBalances := [500] } }

-- C9: a token balance present only in the post snapshot.
def wC9tb : TokenBalance :=
  { owner := "ME", accountIndex := some 0, mint := "M1",
    uiTokenAmount := { uiAmount := some 3, decimals := 6 } }

def wC9raw : RawTx :=
  { transaction := { message := { accountKeys := [.str "ME"] } },
    meta := { postTokenBalances := [wC9tb] } }

/-! ## Helper lemmas -/

theorem minByVal_eq_none {κ α : Type} [LinearOrder α] (l : List (κ × α)) :
    minByVal l = none ↔ l = [] := by
  cases l with
  | nil => simp [minByVal]
  | cons p rest =>
    simp only [minByVal]
    constructor
    · intro h
      exfalso
      cases hr : minByVal rest with
      | none =>
        simp only [hr] at h
        exact Option.noConfusion h
      | some q =>
        simp only [hr] at h
        split at h <;> exact Option.noConfusion h
    · intro h
      exact absurd h (List.cons_ne_nil _ _)

theorem maxByVal_eq_none {κ α : Type} [LinearOrder α] (l : List (κ × α)) :
    maxByVal l = none ↔ l = [] := by
  cases l with
  | nil => simp [maxByVal]
  | cons p rest =>
    simp only [maxByVal]
    constructor
    · intro h
      exfalso
      cases hr : maxByVal rest with
      | none =>
        simp only [hr] at h
        exact Option.noConfusion h
      | some q =>
        simp only [hr] at h
        split at h <;> exact Option.noConfusion h
    · intro h
      exact absurd h (List.cons_ne_nil _ _)

theorem minByVal_mem {κ α : Type} [LinearOrder α] :
    ∀ {l : List (κ × α)} {p : κ × α}, minByVal l = some p → p ∈ l := by
  intro l
  induction l with
  | nil => intro p h; simp [minByVal] at h
  | cons q rest ih =>
    intro p h
    simp only [minByVal] at h
    cases hr : minByVal rest with
    | none =>
      simp only [hr, Option.some.injEq] at h
      subst h
      exact List.mem_cons_self _ _
    | some r =>
      simp only [hr] at h
      by_cases hlt : r.2 < q.2
      · rw [if_pos hlt, Option.some.injEq] at h
        subst h
        exact List.mem_cons_of_mem _ (ih hr)
      · rw [if_neg hlt, Option.some.injEq] at h
        subst h
        exact List.mem_cons_self _ _

theorem maxByVal_mem {κ α : Type} [LinearOrder α] :
    ∀ {l : List (κ × α)} {p : κ × α}, maxByVal l = some p → p ∈ l := by
  intro l
  induction l with
  | nil => intro p h; simp [maxByVal] at h
  | cons q rest ih =>
    intro p h
    simp only [maxByVal] at h
    cases hr : maxByVal rest with
    | none =>
      simp only [hr, Option.some.injEq] at h
      subst h
      exact List.mem_cons_self _ _
    | some r =>
      simp only [hr] at h
      by_cases hlt : q.2 < r.2
      · rw [if_pos hlt, Option.some.injEq] at h
        subst h
        exact List.mem_cons_of_mem _ (ih hr)
      · rw [if_neg hlt, Option.some.injEq] at h
        subst h
        exact List.mem_cons_self _ _

theorem markFirstPrimary_length (l : List Action) :
    (markFirstPrimary l).length = l.length := by
  cases l <;> simp [markFirstPrimary]

theorem normalizePost_head (l : List Action) :
    ∃ a tl, normalizePost l = a :: tl ∧ a.primary = true := by
  cases l with
  | nil => exact ⟨_, _, rfl, rfl⟩
  | cons x xs =>
    simp only [normalizePost, markFirstPrimary]
    rw [if_neg (by simp)]
    split
    · exact ⟨_, _, rfl, rfl⟩
    · exact ⟨_, _, rfl, rfl⟩

theorem normalizePost_trunc (l : List Action) (h : l.length > MAX_DISPLAY_ACTIONS) :
    normalizePost l =
      (markFirstPrimary l).take 4 ++
        [{ type := .overflow, count := some (l.length - 4),
           note := some ("and " ++ toString (l.length - 4) ++
             " more actions...") }] := by
  have hne : l ≠ [] := by
    intro e
    subst e
    simp [MAX_DISPLAY_ACTIONS] at h
  simp only [normalizePost, if_neg hne]
  rw [if_pos (by rw [markFirstPrimary_length]; exact h)]
  have hc : l.length - MAX_DISPLAY_ACTIONS + 1 = l.length - 4 := by
    unfold MAX_DISPLAY_ACTIONS at h ⊢
    omega
  rw [markFirstPrimary_length, hc]
  rfl

theorem find?_append {α : Type} (l1 l2 : List α) (p : α → Bool) :
    (l1 ++ l2).find? p = ((l1.find? p).orElse (fun _ => l2.find? p)) := by
  induction l1 with
  | nil => rfl
  | cons a t ih =>
    by_cases h : p a = true
    · rw [List.cons_append, List.find?_cons_of_pos _ h, List.find?_cons_of_pos _ h]
      rfl
    · rw [List.cons_append, List.find?_cons_of_neg _ h, List.find?_cons_of_neg _ h, ih]

theorem find?_cons_key {κ α : Type} [DecidableEq κ]
    (a : κ × α) (l : List (κ × α)) (k : κ) :
    ((a :: l).find? (fun p => decide (p.1 = k))) =
      if a.1 = k then some a else l.find? (fun p => decide (p.1 = k)) := by
  by_cases h : a.1 = k
  · rw [if_pos h]
    exact List.find?_cons_of_pos _ (by simp [h])
  · rw [if_neg h]
    exact List.find?_cons_of_neg _ (by simp [h])

theorem find?_map_update {κ α : Type} [DecidableEq κ]
    (m : List (κ × α)) (k : κ) (v : α) :
    (m.map (fun p => if p.1 = k then (k, v) else p)).find?
        (fun p => decide (p.1 = k)) =
      if m.any (fun p => decide (p.1 = k)) then some (k, v) else none := by
  induction m with
  | nil => rfl
  | cons p rest ih =>
    simp only [List.map_cons, List.any_cons]
    by_cases h : p.1 = k
    · rw [if_pos h, find?_cons_key, if_pos rfl, if_pos (by simp [h])]
    · rw [if_neg h, find?_cons_key, if_neg h, ih]
      by_cases hr : (rest.any fun p => decide (p.1 = k)) = true
      · rw [if_pos hr, if_pos (by simp [hr])]
      · rw [if_neg hr, if_neg (by simp [h, hr])]

theorem find?_map_update_ne {κ α : Type} [DecidableEq κ]
    (m : List (κ × α)) (k k' : κ) (v : α) (h : k' ≠ k) :
    (m.map (fun p => if p.1 = k then (k, v) else p)).find?
        (fun p => decide (p.1 = k')) =
      m.find? (fun p => decide (p.1 = k')) := by
  induction m with
  | nil => rfl
  | cons p rest ih =>
    simp only [List.map_cons]
    by_cases hpk : p.1 = k
    · rw [if_pos hpk, find?_cons_key, find?_cons_key]
      rw [if_neg (fun e => h e.symm),
        if_neg (by rw [hpk]; exact fun e => h e.symm), ih]
    · rw [if_neg hpk, find?_cons_key, find?_cons_key, ih]

theorem alGet_alSet_self {κ α : Type} [DecidableEq κ]
    (m : List (κ × α)) (k : κ) (v : α) (d : α) :
    alGet (alSet m k v) k d = v := by
  unfold alGet alSet
  by_cases h : m.any (fun p => decide (p.1 = k))
  · rw [if_pos h, find?_map_update, if_pos h]
  · rw [if_neg h]
    have hnone : m.find? (fun p => decide (p.1 = k)) = none := by
      rw [List.find?_eq_none]
      intro p hp
      simp only [decide_eq_true_eq]
      intro hk
      exact h (List.any_eq_true.mpr ⟨p, hp, by simp [hk]⟩)
    rw [find?_append, hnone]
    rw [show (none : Option (κ × α)).orElse
      (fun _ => List.find? (fun p => decide (p.1 = k)) [(k, v)]) =
        List.find? (fun p => decide (p.1 = k)) [(k, v)] from rfl]
    rw [find?_cons_key, if_pos rfl]

theorem alGet_alSet_ne {κ α : Type} [DecidableEq κ]
    (m : List (κ × α)) (k k' : κ) (v : α) (d : α) (h : k' ≠ k) :
    alGet (alSet m k v) k' d = alGet m k' d := by
  unfold alGet alSet
  by_cases hany : m.any (fun p => decide (p.1 = k))
  · rw [if_pos hany, find?_map_update_ne m k k' v h]
  · rw [if_neg hany, find?_append]
    cases hf : m.find? (fun p => decide (p.1 = k')) with
    | some q => rfl
    | none =>
      rw [show (none : Option (κ × α)).orElse
        (fun _ => List.find? (fun p => decide (p.1 = k')) [(k, v)]) =
          List.find? (fun p => decide (p.1 = k')) [(k, v)] from rfl]
      rw [find?_cons_key, if_neg (fun e => h e.symm)]
      rfl

theorem alGet_of_hasKey_false {κ α : Type} [DecidableEq κ]
    (m : List (κ × α)) (k : κ) (d : α) (h : alHasKey m k = false) :
    alGet m k d = d := by
  unfold alGet
  have hnone : m.find? (fun p => decide (p.1 = k)) = none := by
    rw [List.find?_eq_none]
    intro p hp hdec
    rw [alHasKey] at h
    have hx : m.any (fun p => decide (p.1 = k)) = true :=
      List.any_eq_true.mpr ⟨p, hp, hdec⟩
    rw [h] at hx
    exact Bool.noConfusion hx
  rw [hnone]

theorem alHasKey_of_mem {κ α : Type} [DecidableEq κ]
    {m : List (κ × α)} {p : κ × α} (h : p ∈ m) :
    alHasKey m p.1 = true := by
  rw [alHasKey, List.any_eq_true]
  exact ⟨p, h, by simp⟩

theorem alHasKey_alPop_self {κ α : Type} [DecidableEq κ]
    (m : List (κ × α)) (k : κ) :
    alHasKey (alPop m k) k = false := by
  rw [alHasKey, alPop]
  rw [Bool.eq_false_iff]
  intro h
  rcases List.any_eq_true.mp h with ⟨p, hp, hk⟩
  rcases List.mem_filter.mp hp with ⟨_, hne⟩
  simp only [decide_eq_true_eq] at hk hne
  exact hne hk

theorem any_key_map_update {κ α : Type} [DecidableEq κ]
    (m : List (κ × α)) (k k' : κ) (v : α) (h : k' ≠ k) :
    (m.map (fun p => if p.1 = k then (k, v) else p)).any
        (fun p => decide (p.1 = k')) =
      m.any (fun p => decide (p.1 = k')) := by
  induction m with
  | nil => rfl
  | cons p rest ih =>
    simp only [List.map_cons, List.any_cons, ih]
    by_cases hpk : p.1 = k
    · rw [if_pos hpk]
      have h1 : decide ((k, v).1 = k') = false := by
        simp only [decide_eq_false_iff_not]
        exact fun e => h e.symm
      have h2 : decide (p.1 = k') = false := by
        simp only [decide_eq_false_iff_not]
        rw [hpk]
        exact fun e => h e.symm
      rw [h1, h2]
    · rw [if_neg hpk]

theorem alHasKey_alSet_ne {κ α : Type} [DecidableEq κ]
    (m : List (κ × α)) (k k' : κ) (v : α) (h : k' ≠ k) :
    alHasKey (alSet m k v) k' = alHasKey m k' := by
  unfold alHasKey alSet
  split
  · exact any_key_map_update m k k' v h
  · rw [List.any_append]
    have h1 : decide ((k, v).1 = k') = false := by
      simp only [decide_eq_false_iff_not]
      exact fun e => h e.symm
    simp [h1]

theorem evmStep_nft_shape (u : String) (pr : Option String) (st : EvmScanState)
    (l : EvmLog) :
    (evmStep u pr st l).nft_actions = st.nft_actions ∨
      ∃ a : Action, (evmStep u pr st l).nft_actions = st.nft_actions ++ [a] ∧
        a.type = .nft_transfer := by
  unfold evmStep
  by_cases h0 : l.topics = []
  · rw [if_pos h0]; left; rfl
  · rw [if_neg h0]
    dsimp only
    by_cases h1 : pyLower l.address ∈ WETH_ADDRESSES ∧
        (if l.topics.getD 0 "" ≠ "" then pyLower (l.topics.getD 0 "") else "") =
          WETH_DEPOSIT ∧ l.topics.length ≥ 2
    · rw [if_pos h1]
      by_cases h1a : decode_address (l.topics.getD 1 "") = u
      · rw [if_pos h1a]; left; rfl
      · rw [if_neg h1a]; left; rfl
    · rw [if_neg h1]
      by_cases h2 : pyLower l.address ∈ WETH_ADDRESSES ∧
          (if l.topics.getD 0 "" ≠ "" then pyLower (l.topics.getD 0 "") else "") =
            WETH_WITHDRAWAL ∧ l.topics.length ≥ 2
      · rw [if_pos h2]
        by_cases h2a : decode_address (l.topics.getD 1 "") = u
        · rw [if_pos h2a]; left; rfl
        · rw [if_neg h2a]; left; rfl
      · rw [if_neg h2]
        by_cases h3 : (if l.topics.getD 0 "" ≠ "" then pyLower (l.topics.getD 0 "") else "") =
            ERC721_TRANSFER ∧ l.topics.length = 4
        · rw [if_pos h3]
          by_cases h3a : decode_address (l.topics.getD 1 "") = u ∨
              decode_address (l.topics.getD 2 "") = u
          · rw [if_pos h3a]; right; exact ⟨_, rfl, rfl⟩
          · rw [if_neg h3a]; left; rfl
        · rw [if_neg h3]
          by_cases h4 : (if l.topics.getD 0 "" ≠ "" then pyLower (l.topics.getD 0 "") else "") =
              ERC1155_TRANSFER_SINGLE ∧ l.topics.length ≥ 4
          · rw [if_pos h4]
            by_cases h4a : decode_address (l.topics.getD 2 "") = u ∨
                decode_address (l.topics.getD 3 "") = u
            · rw [if_pos h4a]; right; exact ⟨_, rfl, rfl⟩
            · rw [if_neg h4a]; left; rfl
          · rw [if_neg h4]
            by_cases h5 : (if l.topics.getD 0 "" ≠ "" then pyLower (l.topics.getD 0 "") else "") =
                ERC20_TRANSFER ∧ l.topics.length = 3
            · rw [if_pos h5]; left; rfl
            · rw [if_neg h5]
              by_cases h6 : (if l.topics.getD 0 "" ≠ "" then pyLower (l.topics.getD 0 "") else "") =
                  APPROVAL ∧ l.topics.length ≥ 3
              · rw [if_pos h6]
                by_cases h6a : decode_address (l.topics.getD 1 "") = u
                · rw [if_pos h6a]; left; rfl
                · rw [if_neg h6a]; left; rfl
              · rw [if_neg h6]; left; rfl

theorem evmStep_appr_shape (u : String) (pr : Option String) (st : EvmScanState)
    (l : EvmLog) :
    (evmStep u pr st l).approval_actions = st.approval_actions ∨
      ∃ a : Action, (evmStep u pr st l).approval_actions =
        st.approval_actions ++ [a] ∧ a.type = .approve := by
  unfold evmStep
  by_cases h0 : l.topics = []
  · rw [if_pos h0]; left; rfl
  · rw [if_neg h0]
    dsimp only
    by_cases h1 : pyLower l.address ∈ WETH_ADDRESSES ∧
        (if l.topics.getD 0 "" ≠ "" then pyLower (l.topics.getD 0 "") else "") =
          WETH_DEPOSIT ∧ l.topics.length ≥ 2
    · rw [if_pos h1]
      by_cases h1a : decode_address (l.topics.getD 1 "") = u
      · rw [if_pos h1a]; left; rfl
      · rw [if_neg h1a]; left; rfl
    · rw [if_neg h1]
      by_cases h2 : pyLower l.address ∈ WETH_ADDRESSES ∧
          (if l.topics.getD 0 "" ≠ "" then pyLower (l.topics.getD 0 "") else "") =
            WETH_WITHDRAWAL ∧ l.topics.length ≥ 2
      · rw [if_pos h2]
        by_cases h2a : decode_address (l.topics.getD 1 "") = u
        · rw [if_pos h2a]; left; rfl
        · rw [if_neg h2a]; left; rfl
      · rw [if_neg h2]
        by_cases h3 : (if l.topics.getD 0 "" ≠ "" then pyLower (l.topics.getD 0 "") else "") =
            ERC721_TRANSFER ∧ l.topics.length = 4
        · rw [if_pos h3]
          by_cases h3a : decode_address (l.topics.getD 1 "") = u ∨
              decode_address (l.topics.getD 2 "") = u
          · rw [if_pos h3a]; left; rfl
          · rw [if_neg h3a]; left; rfl
        · rw [if_neg h3]
          by_cases h4 : (if l.topics.getD 0 "" ≠ "" then pyLower (l.topics.getD 0 "") else "") =
              ERC1155_TRANSFER_SINGLE ∧ l.topics.length ≥ 4
          · rw [if_pos h4]
            by_cases h4a : decode_address (l.topics.getD 2 "") = u ∨
                decode_address (l.topics.getD 3 "") = u
            · rw [if_pos h4a]; left; rfl
            · rw [if_neg h4a]; left; rfl
          · rw [if_neg h4]
            by_cases h5 : (if l.topics.getD 0 "" ≠ "" then pyLower (l.topics.getD 0 "") else "") =
                ERC20_TRANSFER ∧ l.topics.length = 3
            · rw [if_pos h5]; left; rfl
            · rw [if_neg h5]
              by_cases h6 : (if l.topics.getD 0 "" ≠ "" then pyLower (l.topics.getD 0 "") else "") =
                  APPROVAL ∧ l.topics.length ≥ 3
              · rw [if_pos h6]
                by_cases h6a : decode_address (l.topics.getD 1 "") = u
                · rw [if_pos h6a]; right; exact ⟨_, rfl, rfl⟩
                · rw [if_neg h6a]; left; rfl
              · rw [if_neg h6]; left; rfl

theorem foldl_nft_types (u : String) (pr : Option String) :
    ∀ (logs : List EvmLog) (st : EvmScanState),
      (∀ a ∈ st.nft_actions, a.type = .nft_transfer) →
      ∀ a ∈ (List.foldl (evmStep u pr) st logs).nft_actions,
        a.type = .nft_transfer := by
  intro logs
  induction logs with
  | nil => intro st h; simpa using h
  | cons l ls ih =>
    intro st h
    rw [List.foldl_cons]
    apply ih
    rcases evmStep_nft_shape u pr st l with heq | ⟨a, heq, ha⟩
    · rw [heq]; exact h
    · rw [heq]
      intro b hb
      rcases List.mem_append.mp hb with hb | hb
      · exact h b hb
      · rw [List.mem_singleton.mp hb]; exact ha

theorem foldl_appr_types (u : String) (pr : Option String) :
    ∀ (logs : List EvmLog) (st : EvmScanState),
      (∀ a ∈ st.approval_actions, a.type = .approve) →
      ∀ a ∈ (List.foldl (evmStep u pr) st logs).approval_actions,
        a.type = .approve := by
  intro logs
  induction logs with
  | nil => intro st h; simpa using h
  | cons l ls ih =>
    intro st h
    rw [List.foldl_cons]
    apply ih
    rcases evmStep_appr_shape u pr st l with heq | ⟨a, heq, ha⟩
    · rw [heq]; exact h
    · rw [heq]
      intro b hb
      rcases List.mem_append.mp hb with hb | hb
      · exact h b hb
      · rw [List.mem_singleton.mp hb]; exact ha

theorem evmScan_nft_types (u : String) (pr : Option String) (logs : List EvmLog) :
    ∀ a ∈ (evmScan u pr logs).nft_actions, a.type = .nft_transfer :=
  foldl_nft_types u pr logs {} (fun a ha => absurd ha (List.not_mem_nil a))

theorem evmScan_appr_types (u : String) (pr : Option String) (logs : List EvmLog) :
    ∀ a ∈ (evmScan u pr logs).approval_actions, a.type = .approve :=
  foldl_appr_types u pr logs {} (fun a ha => absurd ha (List.not_mem_nil a))

theorem solNftFold_types (s : String) (pr : Option String)
    (decs : List (String × Int)) :
    ∀ (L : List (String × ℚ)) (acc : List String × List Action),
      (∀ a ∈ acc.2, a.type = .nft_transfer) →
      ∀ a ∈ (List.foldl (solNftStep s pr decs) acc L).2,
        a.type = .nft_transfer := by
  intro L
  induction L with
  | nil => intro acc h; simpa using h
  | cons p ps ih =>
    intro acc h
    rw [List.foldl_cons]
    apply ih
    unfold solNftStep
    dsimp only
    split_ifs
    · intro b hb
      rcases List.mem_append.mp hb with hb | hb
      · exact h b hb
      · rw [List.mem_singleton.mp hb]; rfl
    · exact h

theorem solNftActions_types (raw : RawTx) :
    ∀ a ∈ solNftActions raw, a.type = .nft_transfer := by
  unfold solNftActions solNftPass
  exact solNftFold_types _ _ _ _ ([], [])
    (fun a ha => absurd ha (List.not_mem_nil a))

theorem countP_swap_of_types (l : List Action) (t : ActionType)
    (ht : t ≠ .swap) (h : ∀ a ∈ l, a.type = t) :
    l.countP (fun a => decide (a.type = .swap)) = 0 :=
  List.countP_eq_zero.mpr (fun a ha => by simp [h a ha, ht])

theorem countP_swap_map_transfer {β : Type} (l : List β) (f : β → Action)
    (hf : ∀ b, (f b).type = .transfer) :
    (l.map f).countP (fun a => decide (a.type = .swap)) = 0 :=
  List.countP_eq_zero.mpr (fun a ha => by
    rcases List.mem_map.mp ha with ⟨b, _, rfl⟩
    simp [hf b])

theorem mem_ite_list {α : Type} {c : Prop} [Decidable c] {a : α}
    {l1 l2 : List α} (ha : a ∈ (if c then l1 else l2)) : a ∈ l1 ∨ a ∈ l2 := by
  split at ha
  · exact Or.inl ha
  · exact Or.inr ha

theorem classify_evm_mem_types (raw : RawTx) :
    ∀ a ∈ classify_evm_actions raw,
      a.type = .swap ∨ a.type = .transfer ∨ a.type = .nft_transfer ∨
        a.type = .approve ∨ a.type = .contract_call := by
  intro a ha
  unfold classify_evm_actions at ha
  dsimp only at ha
  by_cases h0 : evmUser raw = ""
  · rw [if_pos h0] at ha
    exact absurd ha (List.not_mem_nil a)
  · rw [if_neg h0] at ha
    by_cases hc : evmIsCreation raw = true
    · rw [if_pos hc] at ha
      rw [List.mem_singleton] at ha
      subst ha
      exact Or.inr (Or.inr (Or.inr (Or.inr rfl)))
    · rw [if_neg hc] at ha
      rcases hmin : minByVal (evmNegative raw) with _ | pin <;>
        rcases hmax : maxByVal (evmPositive raw) with _ | pout <;>
        simp only [hmin, hmax] at ha <;>
        rcases mem_ite_list ha with ha | ha
      · rcases mem_ite_list ha with ha | ha <;>
          (rw [List.mem_singleton] at ha; subst ha;
            exact Or.inr (Or.inr (Or.inr (Or.inr rfl))))
      · rcases List.mem_append.mp ha with ha | ha
        · rcases List.mem_append.mp ha with ha | ha
          · exact absurd ha (List.not_mem_nil a)
          · exact Or.inr (Or.inr (Or.inl (evmScan_nft_types _ _ _ a ha)))
        · exact Or.inr (Or.inr (Or.inr (Or.inl (evmScan_appr_types _ _ _ a ha))))
      · rcases mem_ite_list ha with ha | ha <;>
          (rw [List.mem_singleton] at ha; subst ha;
            exact Or.inr (Or.inr (Or.inr (Or.inr rfl))))
      · rcases List.mem_append.mp ha with ha | ha
        · rcases List.mem_append.mp ha with ha | ha
          · rcases List.mem_map.mp ha with ⟨p, _, rfl⟩
            exact Or.inr (Or.inl rfl)
          · exact Or.inr (Or.inr (Or.inl (evmScan_nft_types _ _ _ a ha)))
        · exact Or.inr (Or.inr (Or.inr (Or.inl (evmScan_appr_types _ _ _ a ha))))
      · rcases mem_ite_list ha with ha | ha <;>
          (rw [List.mem_singleton] at ha; subst ha;
            exact Or.inr (Or.inr (Or.inr (Or.inr rfl))))
      · rcases List.mem_append.mp ha with ha | ha
        · rcases List.mem_append.mp ha with ha | ha
          · rcases List.mem_map.mp ha with ⟨p, _, rfl⟩
            exact Or.inr (Or.inl rfl)
          · exact Or.inr (Or.inr (Or.inl (evmScan_nft_types _ _ _ a ha)))
        · exact Or.inr (Or.inr (Or.inr (Or.inl (evmScan_appr_types _ _ _ a ha))))
      · rcases mem_ite_list ha with ha | ha <;>
          (rw [List.mem_singleton] at ha; subst ha;
            exact Or.inr (Or.inr (Or.inr (Or.inr rfl))))
      · rcases List.mem_append.mp ha with ha | ha
        · rcases List.mem_append.mp ha with ha | ha
          · rw [List.mem_singleton] at ha
            subst ha
            exact Or.inl rfl
          · exact Or.inr (Or.inr (Or.inl (evmScan_nft_types _ _ _ a ha)))
        · exact Or.inr (Or.inr (Or.inr (Or.inl (evmScan_appr_types _ _ _ a ha))))

theorem classify_sol_mem_types (raw : RawTx) :
    ∀ a ∈ classify_solana_actions raw,
      a.type = .swap ∨ a.type = .transfer ∨ a.type = .nft_transfer ∨
        a.type = .approve ∨ a.type = .contract_call := by
  intro a ha
  unfold classify_solana_actions at ha
  dsimp only at ha
  by_cases h0 : solSigner raw = ""
  · rw [if_pos h0] at ha
    exact absurd ha (List.not_mem_nil a)
  · rw [if_neg h0] at ha
    by_cases hv : is_vote_transaction raw = true
    · rw [if_pos hv] at ha
      rw [List.mem_singleton] at ha
      subst ha
      exact Or.inr (Or.inr (Or.inr (Or.inr rfl)))
    · rw [if_neg hv] at ha
      rcases hmin : minByVal (solNegative raw) with _ | pin <;>
        rcases hmax : maxByVal (solPositive raw) with _ | pout <;>
        simp only [hmin, hmax] at ha <;>
        rcases mem_ite_list ha with ha | ha
      · rw [List.mem_singleton] at ha
        subst ha
        exact Or.inr (Or.inr (Or.inr (Or.inr rfl)))
      · rcases List.mem_append.mp ha with ha | ha
        · exact absurd ha (List.not_mem_nil a)
        · exact Or.inr (Or.inr (Or.inl (solNftActions_types _ a ha)))
      · rw [List.mem_singleton] at ha
        subst ha
        exact Or.inr (Or.inr (Or.inr (Or.inr rfl)))
      · rcases List.mem_append.mp ha with ha | ha
        · rcases List.mem_map.mp ha with ⟨p, _, rfl⟩
          exact Or.inr (Or.inl rfl)
        · exact Or.inr (Or.inr (Or.inl (solNftActions_types _ a ha)))
      · rw [List.mem_singleton] at ha
        subst ha
        exact Or.inr (Or.inr (Or.inr (Or.inr rfl)))
      · rcases List.mem_append.mp ha with ha | ha
        · rcases List.mem_map.mp ha with ⟨p, _, rfl⟩
          exact Or.inr (Or.inl rfl)
        · exact Or.inr (Or.inr (Or.inl (solNftActions_types _ a ha)))
      · rw [List.mem_singleton] at ha
        subst ha
        exact Or.inr (Or.inr (Or.inr (Or.inr rfl)))
      · rcases List.mem_append.mp ha with ha | ha
        · rw [List.mem_singleton] at ha
          subst ha
          exact Or.inl rfl
        · exact Or.inr (Or.inr (Or.inl (solNftActions_types _ a ha)))

theorem countP_markFirstPrimary (l : List Action) (p : ActionType) :
    (markFirstPrimary l).countP (fun a => decide (a.type = p)) =
      l.countP (fun a => decide (a.type = p)) := by
  cases l with
  | nil => rfl
  | cons x xs => simp [markFirstPrimary, List.countP_cons]

/-! ## The claims -/

theorem evmStep_weth_deposit (user : String) (protocol : Option String)
    (st : EvmScanState) (l : EvmLog)
    (h0 : ¬l.topics = [])
    (hc : pyLower l.address ∈ WETH_ADDRESSES ∧
      (if l.topics.getD 0 "" ≠ "" then pyLower (l.topics.getD 0 "") else "") =
        WETH_DEPOSIT ∧ l.topics.length ≥ 2)
    (hu : decode_address (l.topics.getD 1 "") = user) :
    evmStep user protocol st l =
      { st with weth_net_delta := st.weth_net_delta - hex_to_int l.data } := by
  unfold evmStep
  rw [if_neg h0]
  dsimp only
  rw [if_pos hc, if_pos hu]

theorem evmStep_weth_withdrawal (user : String) (protocol : Option String)
    (st : EvmScanState) (l : EvmLog)
    (h0 : ¬l.topics = [])
    (hn : ¬(pyLower l.address ∈ WETH_ADDRESSES ∧
      (if l.topics.getD 0 "" ≠ "" then pyLower (l.topics.getD 0 "") else "") =
        WETH_DEPOSIT ∧ l.topics.length ≥ 2))
    (hc : pyLower l.address ∈ WETH_ADDRESSES ∧
      (if l.topics.getD 0 "" ≠ "" then pyLower (l.topics.getD 0 "") else "") =
        WETH_WITHDRAWAL ∧ l.topics.length ≥ 2)
    (hu : decode_address (l.topics.getD 1 "") = user) :
    evmStep user protocol st l =
      { st with weth_net_delta := st.weth_net_delta + hex_to_int l.data } := by
  unfold evmStep
  rw [if_neg h0]
  dsimp only
  rw [if_neg hn, if_pos hc, if_pos hu]

theorem evmStep_skip_no_topics (user : String) (protocol : Option String)
    (st : EvmScanState) (l : EvmLog) (hl : l.topics = []) :
    evmStep user protocol st l = st := by
  unfold evmStep
  rw [if_pos hl]

theorem evmStep_weth_shift (u : String) (pr : Option String) (st : EvmScanState)
    (l : EvmLog) (c : Int) :
    evmStep u pr { st with weth_net_delta := st.weth_net_delta + c } l =
      { evmStep u pr st l with
        weth_net_delta := (evmStep u pr st l).weth_net_delta + c } := by
  unfold evmStep
  by_cases h0 : l.topics = []
  · rw [if_pos h0, if_pos h0]
  · rw [if_neg h0, if_neg h0]
    dsimp only
    by_cases h1 : pyLower l.address ∈ WETH_ADDRESSES ∧
        (if l.topics.getD 0 "" ≠ "" then pyLower (l.topics.getD 0 "") else "") =
          WETH_DEPOSIT ∧ l.topics.length ≥ 2
    · rw [if_pos h1, if_pos h1]
      by_cases h1a : decode_address (l.topics.getD 1 "") = u
      · rw [if_pos h1a, if_pos h1a]
        dsimp only
        congr 1
        omega
      · rw [if_neg h1a, if_neg h1a]
    · rw [if_neg h1, if_neg h1]
      by_cases h2 : pyLower l.address ∈ WETH_ADDRESSES ∧
          (if l.topics.getD 0 "" ≠ "" then pyLower (l.topics.getD 0 "") else "") =
            WETH_WITHDRAWAL ∧ l.topics.length ≥ 2
      · rw [if_pos h2, if_pos h2]
        by_cases h2a : decode_address (l.topics.getD 1 "") = u
        · rw [if_pos h2a, if_pos h2a]
          dsimp only
          congr 1
          omega
        · rw [if_neg h2a, if_neg h2a]
      · rw [if_neg h2, if_neg h2]
        by_cases h3 : (if l.topics.getD 0 "" ≠ "" then pyLower (l.topics.getD 0 "") else "") =
            ERC721_TRANSFER ∧ l.topics.length = 4
        · rw [if_pos h3, if_pos h3]
          by_cases h3a : decode_address (l.topics.getD 1 "") = u ∨
              decode_address (l.topics.getD 2 "") = u
          · rw [if_pos h3a, if_pos h3a]
          · rw [if_neg h3a, if_neg h3a]
        · rw [if_neg h3, if_neg h3]
          by_cases h4 : (if l.topics.getD 0 "" ≠ "" then pyLower (l.topics.getD 0 "") else "") =
              ERC1155_TRANSFER_SINGLE ∧ l.topics.length ≥ 4
          · rw [if_pos h4, if_pos h4]
            by_cases h4a : decode_address (l.topics.getD 2 "") = u ∨
                decode_address (l.topics.getD 3 "") = u
            · rw [if_pos h4a, if_pos h4a]
            · rw [if_neg h4a, if_neg h4a]
          · rw [if_neg h4, if_neg h4]
            by_cases h5 : (if l.topics.getD 0 "" ≠ "" then pyLower (l.topics.getD 0 "") else "") =
                ERC20_TRANSFER ∧ l.topics.length = 3
            · rw [if_pos h5, if_pos h5]
            · rw [if_neg h5, if_neg h5]
              by_cases h6 : (if l.topics.getD 0 "" ≠ "" then pyLower (l.topics.getD 0 "") else "") =
                  APPROVAL ∧ l.topics.length ≥ 3
              · rw [if_pos h6, if_pos h6]
                by_cases h6a : decode_address (l.topics.getD 1 "") = u
                · rw [if_pos h6a, if_pos h6a]
                · rw [if_neg h6a, if_neg h6a]
              · rw [if_neg h6, if_neg h6]

theorem evmScanFold_weth_shift (u : String) (pr : Option String)
    (L : List EvmLog) :
    ∀ (st : EvmScanState) (c : Int),
      List.foldl (evmStep u pr)
        { st with weth_net_delta := st.weth_net_delta + c } L =
      { List.foldl (evmStep u pr) st L with
        weth_net_delta := (List.foldl (evmStep u pr) st L).weth_net_delta + c } := by
  induction L with
  | nil => intro st c; rfl
  | cons l ls ih =>
    intro st c
    rw [List.foldl_cons, List.foldl_cons, evmStep_weth_shift]
    exact ih (evmStep u pr st l) c

theorem foldl_weth_pair_cancel (u : String) (pr : Option String)
    (s1 : EvmScanState) (L2 L3 : List EvmLog) (A : Int) (dep wd : EvmLog)
    (hdep : evmStep u pr s1 dep =
      { s1 with weth_net_delta := s1.weth_net_delta - A })
    (hwd : ∀ x : EvmScanState, evmStep u pr x wd =
      { x with weth_net_delta := x.weth_net_delta + A }) :
    List.foldl (evmStep u pr) s1 (dep :: (L2 ++ wd :: L3)) =
      List.foldl (evmStep u pr) s1 (L2 ++ L3) := by
  rw [List.foldl_cons, hdep, sub_eq_add_neg, List.foldl_append,
    evmScanFold_weth_shift, List.foldl_append]
  generalize List.foldl (evmStep u pr) s1 L2 = s2
  rw [List.foldl_cons, hwd]
  dsimp only
  have h3 : s2.weth_net_delta + (-A) + A = s2.weth_net_delta := by omega
  rw [h3]

theorem evmFoldNative_no_weth (tx : TxData) (st : EvmScanState) :
    ∀ w ∈ WETH_ADDRESSES, alHasKey (evmFoldNative tx st) w = false := by
  intro w hw
  have hw' : w = "0x4200000000000000000000000000000000000006" := by
    simpa [WETH_ADDRESSES] using hw
  subst hw'
  unfold evmFoldNative
  dsimp only
  rw [show WETH_ADDRESSES =
    ["0x4200000000000000000000000000000000000006"] from rfl]
  rw [List.foldl_cons, List.foldl_nil]
  dsimp only
  split
  · rw [alHasKey_alSet_ne _ _ _ _ (by decide)]
    exact alHasKey_alPop_self _ _
  · exact alHasKey_alPop_self _ _

theorem countP_ite_cases {α : Type} {c : Prop} [Decidable c]
    {l1 l2 : List α} {p : α → Bool} {n : Nat}
    (h1 : c → l1.countP p = n) (h2 : ¬c → l2.countP p = n) :
    (if c then l1 else l2).countP p = n := by
  split
  · exact h1 ‹_›
  · exact h2 ‹_›

/-- C1: each classifier emits a `swap` action iff the post-folding
(and, on Solana, post-dust-filter, post-NFT-pull-out) net delta map has
both a strictly negative and a strictly positive entry — and then exactly
one swap is emitted; this holds on every bundle that reaches the delta
classification (an acting account exists and the contract-creation /
vote short-circuits do not fire). -/
theorem claim_C1_swap_iff :
    (∀ raw : RawTx, evmUser raw ≠ "" → evmIsCreation raw = false →
      (classify_evm_actions raw).countP (fun a => decide (a.type = .swap)) =
        if evmNegative raw ≠ [] ∧ evmPositive raw ≠ [] then 1 else 0) ∧
    (∀ raw : RawTx, solSigner raw ≠ "" → is_vote_transaction raw = false →
      (classify_solana_actions raw).countP (fun a => decide (a.type = .swap)) =
        if solNegative raw ≠ [] ∧ solPositive raw ≠ [] then 1 else 0) := by
  constructor
  · intro raw h1 h2
    have hnft : ((evmScan (evmUser raw) (identify_protocol_evm raw.transaction)
        raw.receipt.logs).nft_actions).countP
          (fun a => decide (a.type = .swap)) = 0 :=
      countP_swap_of_types _ .nft_transfer (by simp) (evmScan_nft_types _ _ _)
    have happr : ((evmScan (evmUser raw) (identify_protocol_evm raw.transaction)
        raw.receipt.logs).approval_actions).countP
          (fun a => decide (a.type = .swap)) = 0 :=
      countP_swap_of_types _ .approve (by simp) (evmScan_appr_types _ _ _)
    unfold classify_evm_actions
    dsimp only
    rw [if_neg h1, if_neg (by rw [h2]; exact Bool.false_ne_true)]
    rcases hmin : minByVal (evmNegative raw) with _ | pin <;>
      rcases hmax : maxByVal (evmPositive raw) with _ | pout <;>
      simp only [hmin, hmax]
    · have hneg : evmNegative raw = [] := (minByVal_eq_none _).mp hmin
      have hcond : ¬(evmNegative raw ≠ [] ∧ evmPositive raw ≠ []) := by
        simp [hneg]
      rw [if_neg hcond]
      apply countP_ite_cases
      · intro _
        apply countP_ite_cases
        · intro _; rfl
        · intro _; rfl
      · intro _
        rw [List.countP_append, List.countP_append, hnft, happr]
        rfl
    · have hneg : evmNegative raw = [] := (minByVal_eq_none _).mp hmin
      have hcond : ¬(evmNegative raw ≠ [] ∧ evmPositive raw ≠ []) := by
        simp [hneg]
      rw [if_neg hcond]
      apply countP_ite_cases
      · intro _
        apply countP_ite_cases
        · intro _; rfl
        · intro _; rfl
      · intro _
        rw [List.countP_append, List.countP_append, hnft, happr,
          countP_swap_map_transfer _ _ (fun b => rfl)]
    · have hpos : evmPositive raw = [] := (maxByVal_eq_none _).mp hmax
      have hcond : ¬(evmNegative raw ≠ [] ∧ evmPositive raw ≠ []) := by
        simp [hpos]
      rw [if_neg hcond]
      apply countP_ite_cases
      · intro _
        apply countP_ite_cases
        · intro _; rfl
        · intro _; rfl
      · intro _
        rw [List.countP_append, List.countP_append, hnft, happr,
          countP_swap_map_transfer _ _ (fun b => rfl)]
    · have hne : evmNegative raw ≠ [] := by
        intro e
        rw [(minByVal_eq_none (evmNegative raw)).mpr e] at hmin
        exact Option.noConfusion hmin
      have hpe : evmPositive raw ≠ [] := by
        intro e
        rw [(maxByVal_eq_none (evmPositive raw)).mpr e] at hmax
        exact Option.noConfusion hmax
      have hcond : evmNegative raw ≠ [] ∧ evmPositive raw ≠ [] := ⟨hne, hpe⟩
      rw [if_pos hcond]
      apply countP_ite_cases
      · intro hc
        simp at hc
      · intro _
        rw [List.countP_append, List.countP_append, hnft, happr]
        rfl
  · intro raw h1 h2
    have hnft : (solNftActions raw).countP
        (fun a => decide (a.type = .swap)) = 0 :=
      countP_swap_of_types _ .nft_transfer (by simp) (solNftActions_types raw)
    unfold classify_solana_actions
    dsimp only
    rw [if_neg h1, if_neg (by rw [h2]; exact Bool.false_ne_true)]
    rcases hmin : minByVal (solNegative raw) with _ | pin <;>
      rcases hmax : maxByVal (solPositive raw) with _ | pout <;>
      simp only [hmin, hmax]
    · have hneg : solNegative raw = [] := (minByVal_eq_none _).mp hmin
      have hcond : ¬(solNegative raw ≠ [] ∧ solPositive raw ≠ []) := by
        simp [hneg]
      rw [if_neg hcond]
      apply countP_ite_cases
      · intro _; rfl
      · intro _
        rw [List.countP_append, hnft]
        rfl
    · have hneg : solNegative raw = [] := (minByVal_eq_none _).mp hmin
      have hcond : ¬(solNegative raw ≠ [] ∧ solPositive raw ≠ []) := by
        simp [hneg]
      rw [if_neg hcond]
      apply countP_ite_cases
      · intro _; rfl
      · intro _
        rw [List.countP_append, hnft,
          countP_swap_map_transfer _ _ (fun b => rfl)]
    · have hpos : solPositive raw = [] := (maxByVal_eq_none _).mp hmax
      have hcond : ¬(solNegative raw ≠ [] ∧ solPositive raw ≠ []) := by
        simp [hpos]
      rw [if_neg hcond]
      apply countP_ite_cases
      · intro _; rfl
      · intro _
        rw [List.countP_append, hnft,
          countP_swap_map_transfer _ _ (fun b => rfl)]
    · have hne : solNegative raw ≠ [] := by
        intro e
        rw [(minByVal_eq_none (solNegative raw)).mpr e] at hmin
        exact Option.noConfusion hmin
      have hpe : solPositive raw ≠ [] := by
        intro e
        rw [(maxByVal_eq_none (solPositive raw)).mpr e] at hmax
        exact Option.noConfusion hmax
      have hcond : solNegative raw ≠ [] ∧ solPositive raw ≠ [] := ⟨hne, hpe⟩
      rw [if_pos hcond]
      apply countP_ite_cases
      · intro hc
        simp at hc
      · intro _
        rw [List.countP_append, hnft]
        rfl

theorem claim_C1_swap_iff_witness :
    evmUser wC1evm ≠ "" ∧ evmIsCreation wC1evm = false ∧
    ((classify_evm_actions wC1evm).countP (fun a => decide (a.type = .swap)) =
      if evmNegative wC1evm ≠ [] ∧ evmPositive wC1evm ≠ [] then 1 else 0) ∧
    solSigner wC1sol ≠ "" ∧ is_vote_transaction wC1sol = false ∧
    ((classify_solana_actions wC1sol).countP (fun a => decide (a.type = .swap)) =
      if solNegative wC1sol ≠ [] ∧ solPositive wC1sol ≠ [] then 1 else 0) :=
  ⟨by decide, by decide, claim_C1_swap_iff.1 wC1evm (by decide) (by decide),
   by decide, by decide, claim_C1_swap_iff.2 wC1sol (by decide) (by decide)⟩

/-- C10: classifier output is restricted to `swap`, `transfer`,
`nft_transfer`, `approve` and `contract_call` — never `mint`, `burn` or
`overflow`; `overflow` actions can only come from the normalizer, whose
non-truncating path introduces none. -/
theorem claim_C10_action_type_range :
    (∀ raw : RawTx,
      ((classify_evm_actions raw).all (fun a =>
        decide (a.type = .swap ∨ a.type = .transfer ∨
          a.type = .nft_transfer ∨ a.type = .approve ∨
          a.type = .contract_call))) = true ∧
      ((classify_solana_actions raw).all (fun a =>
        decide (a.type = .swap ∨ a.type = .transfer ∨
          a.type = .nft_transfer ∨ a.type = .approve ∨
          a.type = .contract_call))) = true) ∧
    (∀ l : List Action, l.length ≤ MAX_DISPLAY_ACTIONS →
      (normalizePost l).countP (fun a => decide (a.type = .overflow)) =
        l.countP (fun a => decide (a.type = .overflow))) := by
  refine ⟨fun raw => ⟨?_, ?_⟩, ?_⟩
  · rw [List.all_eq_true]
    intro a ha
    exact decide_eq_true (classify_evm_mem_types raw a ha)
  · rw [List.all_eq_true]
    intro a ha
    exact decide_eq_true (classify_sol_mem_types raw a ha)
  · intro l hl
    cases l with
    | nil => rfl
    | cons x xs =>
      unfold normalizePost
      rw [if_neg (List.cons_ne_nil x xs)]
      dsimp only
      rw [if_neg (by rw [markFirstPrimary_length]; exact Nat.not_lt.mpr hl)]
      exact countP_markFirstPrimary _ _

theorem claim_C10_action_type_range_witness :
    ([] : List Action).length ≤ MAX_DISPLAY_ACTIONS ∧
    (normalizePost []).countP (fun a => decide (a.type = .overflow)) =
      ([] : List Action).countP (fun a => decide (a.type = .overflow)) :=
  ⟨by decide, claim_C10_action_type_range.2 [] (by decide)⟩

/-- C2: for either supported chain tag, if the raw classifier output has
N > 5 actions, `normalize_actions` returns exactly 5 actions: the
classifier's first 4 in order (the head of the list carrying the
normalizer's `primary` mark), followed by one `overflow` action with
`count = N - 4`. -/
theorem claim_C2_overflow_law (raw : RawTx) (chain : String)
    (actions : List Action)
    (hdisp : (chain = "base" ∧ actions = classify_evm_actions raw) ∨
      (chain = "solana" ∧ actions = classify_solana_actions raw))
    (hlen : actions.length > 5) :
    normalize_actions raw chain =
      (markFirstPrimary actions).take 4 ++
        [{ type := .overflow, count := some (actions.length - 4),
           note := some ("and " ++ toString (actions.length - 4) ++
             " more actions...") }] ∧
    (normalize_actions raw chain).length = 5 ∧
    (normalize_actions raw chain).getLast? =
      some { type := .overflow, count := some (actions.length - 4),
             note := some ("and " ++ toString (actions.length - 4) ++
               " more actions...") } := by
  have hnorm : normalize_actions raw chain = normalizePost actions := by
    rcases hdisp with ⟨hc, ha⟩ | ⟨hc, ha⟩ <;> subst hc <;> subst ha <;>
      simp [normalize_actions]
  have h5 : actions.length > MAX_DISPLAY_ACTIONS := hlen
  rw [hnorm, normalizePost_trunc _ h5]
  refine ⟨rfl, ?_, ?_⟩
  · rw [List.length_append, List.length_take, markFirstPrimary_length]
    simp only [List.length_singleton]
    omega
  · rw [List.getLast?_append]
    rfl

theorem claim_C2_overflow_law_witness :
    (classify_evm_actions wC2raw).length > 5 ∧
    (normalize_actions wC2raw "base").length = 5 ∧
    (normalize_actions wC2raw "base").getLast? =
      some { type := .overflow,
             count := some ((classify_evm_actions wC2raw).length - 4),
             note := some ("and " ++
               toString ((classify_evm_actions wC2raw).length - 4) ++
               " more actions...") } := by
  refine ⟨by decide, ?_, ?_⟩
  · exact (claim_C2_overflow_law wC2raw "base" (classify_evm_actions wC2raw)
      (Or.inl ⟨rfl, rfl⟩) (by decide)).2.1
  · exact (claim_C2_overflow_law wC2raw "base" (classify_evm_actions wC2raw)
      (Or.inl ⟨rfl, rfl⟩) (by decide)).2.2

/-- C3: for every raw bundle and every chain tag — in particular every
well-formed EVM bundle with an acting account under tag "base", but also
when the classifier returns an empty list or the tag is unsupported —
`normalize_actions` returns a non-empty list whose first element has
`primary = true`. -/
theorem claim_C3_primary_head (raw : RawTx) (chain : String) :
    ∃ a tl, normalize_actions raw chain = a :: tl ∧ a.primary = true := by
  unfold normalize_actions
  split
  · exact normalizePost_head _
  · split
    · exact normalizePost_head _
    · exact ⟨_, _, rfl, rfl⟩

set_option maxHeartbeats 1000000 in
/-- C6: a matched wrapped-native deposit/withdrawal pair by the acting
account on a known WETH address leaves the log-scan state unchanged, with
arbitrary other logs before, between and after the pair (no step of the
scan reads the running wrap/unwrap net, so the two contributions cancel
across any intervening logs), and a `swap` action's token legs never carry
a wrapped-native address — WETH is folded into the native bucket and
removed from the generic delta map. -/
theorem claim_C6_wrap_unwrap_neutral :
    (∀ (user : String) (protocol : Option String) (st : EvmScanState)
        (L1 L2 L3 : List EvmLog) (w t d : String),
      pyLower w ∈ WETH_ADDRESSES → decode_address t = user →
      List.foldl (evmStep user protocol) st
        (L1 ++ { topics := [WETH_DEPOSIT, t], address := w, data := d } ::
          (L2 ++ { topics := [WETH_WITHDRAWAL, t], address := w, data := d } ::
            L3)) =
      List.foldl (evmStep user protocol) st (L1 ++ (L2 ++ L3))) ∧
    (∀ (raw : RawTx) (a : Action), a ∈ classify_evm_actions raw →
      a.type = .swap →
      (∀ ti, a.token_in = some ti → ti.address ∉ WETH_ADDRESSES) ∧
      (∀ ti, a.token_out = some ti → ti.address ∉ WETH_ADDRESSES)) := by
  constructor
  · intro user protocol st L1 L2 L3 w t d hw ht
    rw [List.foldl_append, List.foldl_append]
    exact foldl_weth_pair_cancel user protocol
      (List.foldl (evmStep user protocol) st L1) L2 L3 (hex_to_int d)
      { topics := [WETH_DEPOSIT, t], address := w, data := d }
      { topics := [WETH_WITHDRAWAL, t], address := w, data := d }
      (evmStep_weth_deposit user protocol _
        { topics := [WETH_DEPOSIT, t], address := w, data := d }
        (by simp)
        ⟨hw,
         (by decide : (if WETH_DEPOSIT ≠ "" then pyLower WETH_DEPOSIT
           else "") = WETH_DEPOSIT),
         (by decide : (2 : Nat) ≥ 2)⟩ ht)
      (fun x => evmStep_weth_withdrawal user protocol x
        { topics := [WETH_WITHDRAWAL, t], address := w, data := d }
        (by simp)
        (fun hcc => absurd hcc.2.1
          (by decide : ¬((if WETH_WITHDRAWAL ≠ "" then pyLower WETH_WITHDRAWAL
            else "") = WETH_DEPOSIT)))
        ⟨hw,
         (by decide : (if WETH_WITHDRAWAL ≠ "" then pyLower WETH_WITHDRAWAL
           else "") = WETH_WITHDRAWAL),
         (by decide : (2 : Nat) ≥ 2)⟩ ht)
  · intro raw a ha htype
    unfold classify_evm_actions at ha
    dsimp only at ha
    by_cases h0 : evmUser raw = ""
    · rw [if_pos h0] at ha
      exact absurd ha (List.not_mem_nil a)
    · rw [if_neg h0] at ha
      by_cases hc : evmIsCreation raw = true
      · rw [if_pos hc] at ha
        rw [List.mem_singleton] at ha
        subst ha
        exact ActionType.noConfusion htype
      · rw [if_neg hc] at ha
        rcases hmin : minByVal (evmNegative raw) with _ | pin <;>
          rcases hmax : maxByVal (evmPositive raw) with _ | pout <;>
          simp only [hmin, hmax] at ha <;>
          rcases mem_ite_list ha with ha | ha
        · rcases mem_ite_list ha with ha | ha <;>
            (rw [List.mem_singleton] at ha; subst ha;
              exact ActionType.noConfusion htype)
        · rcases List.mem_append.mp ha with ha | ha
          · rcases List.mem_append.mp ha with ha | ha
            · exact absurd ha (List.not_mem_nil a)
            · rw [evmScan_nft_types _ _ _ a ha] at htype
              exact ActionType.noConfusion htype
          · rw [evmScan_appr_types _ _ _ a ha] at htype
            exact ActionType.noConfusion htype
        · rcases mem_ite_list ha with ha | ha <;>
            (rw [List.mem_singleton] at ha; subst ha;
              exact ActionType.noConfusion htype)
        · rcases List.mem_append.mp ha with ha | ha
          · rcases List.mem_append.mp ha with ha | ha
            · rcases List.mem_map.mp ha with ⟨p, _, rfl⟩
              exact ActionType.noConfusion htype
            · rw [evmScan_nft_types _ _ _ a ha] at htype
              exact ActionType.noConfusion htype
          · rw [evmScan_appr_types _ _ _ a ha] at htype
            exact ActionType.noConfusion htype
        · rcases mem_ite_list ha with ha | ha <;>
            (rw [List.mem_singleton] at ha; subst ha;
              exact ActionType.noConfusion htype)
        · rcases List.mem_append.mp ha with ha | ha
          · rcases List.mem_append.mp ha with ha | ha
            · rcases List.mem_map.mp ha with ⟨p, _, rfl⟩
              exact ActionType.noConfusion htype
            · rw [evmScan_nft_types _ _ _ a ha] at htype
              exact ActionType.noConfusion htype
          · rw [evmScan_appr_types _ _ _ a ha] at htype
            exact ActionType.noConfusion htype
        · rcases mem_ite_list ha with ha | ha <;>
            (rw [List.mem_singleton] at ha; subst ha;
              exact ActionType.noConfusion htype)
        · rcases List.mem_append.mp ha with ha | ha
          · rcases List.mem_append.mp ha with ha | ha
            · rw [List.mem_singleton] at ha
              subst ha
              constructor
              · intro ti hti
                rw [Option.some.injEq] at hti
                subst hti
                show (if pin.1 ≠ "native_eth" then pin.1 else "native") ∉
                  WETH_ADDRESSES
                by_cases hpin : pin.1 ≠ "native_eth"
                · rw [if_pos hpin]
                  intro hmem
                  have hm1 : pin ∈ evmNegative raw := minByVal_mem hmin
                  have hm2 : pin ∈ evmDeltas raw :=
                    (List.mem_filter.mp hm1).1
                  have hm3 : alHasKey (evmDeltas raw) pin.1 = true :=
                    alHasKey_of_mem hm2
                  have hm4 : alHasKey (evmDeltas raw) pin.1 = false := by
                    unfold evmDeltas
                    exact evmFoldNative_no_weth _ _ _ hmem
                  rw [hm3] at hm4
                  exact Bool.noConfusion hm4
                · rw [if_neg hpin]
                  decide
              · intro ti hti
                rw [Option.some.injEq] at hti
                subst hti
                show (if pout.1 ≠ "native_eth" then pout.1 else "native") ∉
                  WETH_ADDRESSES
                by_cases hpout : pout.1 ≠ "native_eth"
                · rw [if_pos hpout]
                  intro hmem
                  have hm1 : pout ∈ evmPositive raw := maxByVal_mem hmax
                  have hm2 : pout ∈ evmDeltas raw :=
                    (List.mem_filter.mp hm1).1
                  have hm3 : alHasKey (evmDeltas raw) pout.1 = true :=
                    alHasKey_of_mem hm2
                  have hm4 : alHasKey (evmDeltas raw) pout.1 = false := by
                    unfold evmDeltas
                    exact evmFoldNative_no_weth _ _ _ hmem
                  rw [hm3] at hm4
                  exact Bool.noConfusion hm4
                · rw [if_neg hpout]
                  decide
            · rw [evmScan_nft_types _ _ _ a ha] at htype
              exact ActionType.noConfusion htype
          · rw [evmScan_appr_types _ _ _ a ha] at htype
            exact ActionType.noConfusion htype

theorem claim_C6_wrap_unwrap_neutral_witness :
    pyLower "0x4200000000000000000000000000000000000006" ∈ WETH_ADDRESSES ∧
    decode_address "ab" = "0xab" ∧
    List.foldl (evmStep "0xab" none) {} ([] ++ wC6dep :: ([wC6mid] ++
      wC6wd :: [])) =
      List.foldl (evmStep "0xab" none) {} ([] ++ ([wC6mid] ++ [])) ∧
    wC6act ∈ classify_evm_actions wC6raw ∧
    wC6act.type = .swap ∧
    ((∀ ti, wC6act.token_in = some ti → ti.address ∉ WETH_ADDRESSES) ∧
      (∀ ti, wC6act.token_out = some ti → ti.address ∉ WETH_ADDRESSES)) :=
  ⟨by decide, by decide,
   claim_C6_wrap_unwrap_neutral.1 "0xab" none {} [] [wC6mid] []
     "0x4200000000000000000000000000000000000006" "ab" "0x5"
     (by decide) (by decide),
   by decide, by decide,
   claim_C6_wrap_unwrap_neutral.2 wC6raw wC6act (by decide) (by decide)⟩

/-- C7: the EVM classifier tolerates the malformed shapes the spec names:
a hex field equal to `0x` or `""` decodes to integer 0, a log with no
topics is skipped contributing nothing to the scan state, and deleting
such a log from a bundle does not change the classification. -/
theorem claim_C7_malformed_tolerance :
    hex_to_int "0x" = 0 ∧ hex_to_int "" = 0 ∧
    (∀ (user : String) (protocol : Option String) (st : EvmScanState)
        (l : EvmLog), l.topics = [] → evmStep user protocol st l = st) ∧
    (∀ (raw : RawTx) (l : EvmLog) (L1 L2 : List EvmLog),
      raw.receipt.logs = L1 ++ l :: L2 → l.topics = [] →
      classify_evm_actions raw =
        classify_evm_actions
          { raw with receipt := { raw.receipt with logs := L1 ++ L2 } }) := by
  refine ⟨rfl, rfl, evmStep_skip_no_topics, ?_⟩
  intro raw l L1 L2 hlogs hl
  have hscan : evmScan (evmUser raw) (identify_protocol_evm raw.transaction)
      raw.receipt.logs =
      evmScan (evmUser raw) (identify_protocol_evm raw.transaction)
        (L1 ++ L2) := by
    rw [hlogs]
    unfold evmScan
    rw [List.foldl_append, List.foldl_cons,
      evmStep_skip_no_topics _ _ _ _ hl, ← List.foldl_append]
  have huser : evmUser
      { raw with receipt := { raw.receipt with logs := L1 ++ L2 } } =
      evmUser raw := rfl
  have hdeltas : evmDeltas
      { raw with receipt := { raw.receipt with logs := L1 ++ L2 } } =
      evmDeltas raw := by
    unfold evmDeltas
    dsimp only
    rw [huser, hscan]
  have hneg : evmNegative
      { raw with receipt := { raw.receipt with logs := L1 ++ L2 } } =
      evmNegative raw := by
    unfold evmNegative
    rw [hdeltas]
  have hpos : evmPositive
      { raw with receipt := { raw.receipt with logs := L1 ++ L2 } } =
      evmPositive raw := by
    unfold evmPositive
    rw [hdeltas]
  have hcrea : evmIsCreation
      { raw with receipt := { raw.receipt with logs := L1 ++ L2 } } =
      evmIsCreation raw := rfl
  unfold classify_evm_actions
  dsimp only
  rw [huser, hcrea, hneg, hpos, hscan]

theorem claim_C7_malformed_tolerance_witness :
    wC7log.topics = [] ∧
    evmStep "0xab" none {} wC7log = {} ∧
    wC7raw.receipt.logs = [] ++ wC7log :: [] ∧
    classify_evm_actions wC7raw =
      classify_evm_actions
        { wC7raw with receipt := { wC7raw.receipt with logs := [] ++ [] } } :=
  ⟨rfl, claim_C7_malformed_tolerance.2.2.1 "0xab" none {} wC7log rfl,
   rfl, claim_C7_malformed_tolerance.2.2.2 wC7raw wC7log [] [] rfl rfl⟩

/-- C8 (counterexample): the claim as stated fails — in a bundle whose
instruction list contains the Vote program id but whose account-key list
is empty, the Vote program "appears in an instruction program id", yet
the classifier returns the empty list (the missing-signer check precedes
vote detection), not a single "Validator Vote" `contract_call`. -/
theorem claim_C8_counterexample :
    (wC8cex.transaction.message.instructions.any
      (fun ix => decide (ix.programId = VOTE_PROGRAM))) = true ∧
    is_vote_transaction wC8cex = true ∧
    classify_solana_actions wC8cex = [] := by
  refine ⟨by decide, by decide, by decide⟩

/-- C8 (amended): provided an acting account is determinable (the first
account key resolves to a nonempty signer), a bundle in which the Vote
program address appears anywhere in the account keys or instruction
program ids classifies as the single `contract_call` action noted
"Validator Vote", regardless of any balance deltas present. -/
theorem claim_C8_vote_shortcircuit (raw : RawTx)
    (h1 : solSigner raw ≠ "") (h2 : is_vote_transaction raw = true) :
    classify_solana_actions raw =
      [{ type := .contract_call, note := some "Validator Vote",
         from_ := some (solSigner raw) }] := by
  unfold classify_solana_actions
  dsimp only
  rw [if_neg h1, if_pos h2]

theorem claim_C8_vote_shortcircuit_witness :
    solSigner wC8vote ≠ "" ∧ is_vote_transaction wC8vote = true ∧
    classify_solana_actions wC8vote =
      [{ type := .contract_call, note := some "Validator Vote",
         from_ := some (solSigner wC8vote) }] :=
  ⟨by decide, by decide,
   claim_C8_vote_shortcircuit wC8vote (by decide) (by decide)⟩

theorem foldAdd_alGet (f : Int × String → ℚ) :
    ∀ (L : List (Int × String)) (acc : List (String × ℚ)) (m : String),
      alGet (L.foldl
        (fun md key => alSet md key.2 (alGet md key.2 0 + f key)) acc) m 0 =
        alGet acc m 0 +
          (((L.filter (fun k => decide (k.2 = m))).map f).sum) := by
  intro L
  induction L with
  | nil => intro acc m; simp
  | cons k ks ih =>
    intro acc m
    rw [List.foldl_cons, ih]
    by_cases hk : k.2 = m
    · subst hk
      rw [alGet_alSet_self]
      simp only [List.filter_cons]
      rw [if_pos (by simp), List.map_cons, List.sum_cons]
      ring
    · rw [alGet_alSet_ne _ _ _ _ _ (fun e => hk e.symm)]
      simp only [List.filter_cons]
      rw [if_neg (by simpa using hk)]

/-- C9: a `(accountIndex, mint)` pair that the acting account holds in
only one of the two token-balance snapshots is treated as amount 0 on
the missing side: the contribution of each pair to its mint's delta is
`post - pre` with defaults 0, the mint's delta is the sum of these
contributions, an entry present only in the post snapshot contributes
its full post uiAmount, and one present only in the pre snapshot
contributes the negation of its pre uiAmount. -/
theorem claim_C9_one_sided_snapshot :
    (∀ (raw : RawTx) (m : String),
      alGet (solMintDeltas raw) m 0 =
        (((solAllKeys raw).filter (fun k => decide (k.2 = m))).map
          (solKeyDelta raw)).sum) ∧
    (∀ (raw : RawTx) (k : Int × String),
      alHasKey (solPreMap raw) k = false →
      solKeyDelta raw k = alGet (solPostMap raw) k 0) ∧
    (∀ (raw : RawTx) (k : Int × String),
      alHasKey (solPostMap raw) k = false →
      solKeyDelta raw k = -(alGet (solPreMap raw) k 0)) := by
  refine ⟨?_, ?_, ?_⟩
  · intro raw m
    unfold solMintDeltas
    rw [foldAdd_alGet]
    simp [alGet]
  · intro raw k h
    unfold solKeyDelta
    rw [alGet_of_hasKey_false _ _ _ h, sub_zero]
  · intro raw k h
    unfold solKeyDelta
    rw [alGet_of_hasKey_false _ _ _ h, zero_sub]

theorem claim_C9_one_sided_snapshot_witness :
    alHasKey (solPreMap wC9raw) ((0 : Int), "M1") = false ∧
    solKeyDelta wC9raw ((0 : Int), "M1") =
      alGet (solPostMap wC9raw) ((0 : Int), "M1") 0 ∧
    alHasKey (solPostMap wC9raw) ((1 : Int), "zz") = false ∧
    solKeyDelta wC9raw ((1 : Int), "zz") =
      -(alGet (solPreMap wC9raw) ((1 : Int), "zz") 0) :=
  ⟨by decide,
   claim_C9_one_sided_snapshot.2.1 wC9raw ((0 : Int), "M1") (by decide),
   by decide,
   claim_C9_one_sided_snapshot.2.2 wC9raw ((1 : Int), "zz") (by decide)⟩

/-- C4: in the Solana classifier, an entry of the final delta map enters
swap/transfer classification iff its magnitude strictly exceeds the dust
threshold 1e-6 — so a delta of magnitude 1e-5 is included and one of
magnitude ≤ 1e-6 is excluded — and a native delta of magnitude ≤ 1e-6 is
never even added to the final delta map. -/
theorem claim_C4_dust_threshold :
    (∀ (raw : RawTx) (m : String) (v : ℚ), (m, v) ∈ solDeltasFinal raw →
      ((((m, v) ∈ solNegative raw) ∨ ((m, v) ∈ solPositive raw)) ↔
        DUST < |v|) ∧
      (|v| = 1 / 100000 →
        (((m, v) ∈ solNegative raw) ∨ ((m, v) ∈ solPositive raw))) ∧
      (|v| ≤ 1 / 1000000 →
        ¬(((m, v) ∈ solNegative raw) ∨ ((m, v) ∈ solPositive raw)))) ∧
    (∀ raw : RawTx, |solNativeDelta raw| ≤ DUST →
      solDeltasFinal raw = solDeltasAfterNft raw) := by
  constructor
  · intro raw m v hmem
    have hiff : (((m, v) ∈ solNegative raw) ∨ ((m, v) ∈ solPositive raw)) ↔
        DUST < |v| := by
      unfold solNegative solPositive
      rw [List.mem_filter, List.mem_filter]
      simp only [decide_eq_true_eq]
      constructor
      · rintro (⟨_, hlt⟩ | ⟨_, hgt⟩)
        · rw [abs_of_neg (lt_trans hlt (by norm_num [DUST]))]
          unfold DUST at hlt ⊢
          linarith
        · rw [abs_of_pos (lt_trans (by norm_num [DUST]) hgt)]
          exact hgt
      · intro hlt
        rcases abs_cases v with ⟨he, _⟩ | ⟨he, _⟩
        · right
          exact ⟨hmem, by rw [he] at hlt; exact hlt⟩
        · left
          refine ⟨hmem, ?_⟩
          rw [he] at hlt
          linarith
    refine ⟨hiff, ?_, ?_⟩
    · intro h15
      apply hiff.mpr
      rw [h15]
      norm_num [DUST]
    · intro hle hmem2
      have hgt := hiff.mp hmem2
      unfold DUST at hgt
      linarith
  · intro raw h
    unfold solDeltasFinal
    rw [if_neg (not_lt.mpr h)]

theorem claim_C4_dust_threshold_witness :
    ("M1", (1/100000 : ℚ)) ∈ solDeltasFinal wC4raw ∧
    (|(1/100000 : ℚ)| = 1 / 100000 →
      ((("M1", (1/100000 : ℚ)) ∈ solNegative wC4raw) ∨
        (("M1", (1/100000 : ℚ)) ∈ solPositive wC4raw))) ∧
    |solNativeDelta wC4raw| ≤ DUST ∧
    solDeltasFinal wC4raw = solDeltasAfterNft wC4raw := by
  have hnd : solNativeDelta wC4raw = 0 := by
    unfold solNativeDelta wC4raw
    norm_num
  have hmem : ("M1", (1/100000 : ℚ)) ∈ solDeltasFinal wC4raw := by
    have habs : ¬(|(0 : ℚ) + (1/100000 - 0)| = 1) := by
      rw [abs_of_pos (by norm_num)]
      norm_num
    simp only [solDeltasFinal, solDeltasAfterNft, solNftMints, solNftPass,
      solNftStep, solMintDeltas, solAllKeys, solPreMap, solPostMap,
      solPreDecimals, solMintDecimals, solIngest, solGetOwner, solSigner,
      solKeyDelta, solNativeDelta, wC4raw, wC4tb, alSet, alGet, resolveKey,
      List.find?, DUST, List.foldl]
    norm_num
  refine ⟨hmem, ?_, ?_, ?_⟩
  · intro h15
    exact ((claim_C4_dust_threshold.1 wC4raw "M1" (1/100000) hmem).2.1) h15
  · rw [hnd]
    norm_num [DUST]
  · exact claim_C4_dust_threshold.2 wC4raw (by rw [hnd]; norm_num [DUST])

theorem solNftFold_mono (s : String) (pr : Option String)
    (decs : List (String × Int)) :
    ∀ (L : List (String × ℚ)) (acc : List String × List Action),
      (∀ x ∈ acc.1, x ∈ (List.foldl (solNftStep s pr decs) acc L).1) ∧
      (∀ a ∈ acc.2, a ∈ (List.foldl (solNftStep s pr decs) acc L).2) := by
  intro L
  induction L with
  | nil => intro acc; exact ⟨fun x hx => hx, fun a ha => ha⟩
  | cons p ps ih =>
    intro acc
    rw [List.foldl_cons]
    constructor
    · intro x hx
      refine (ih (solNftStep s pr decs acc p)).1 x ?_
      unfold solNftStep
      dsimp only
      split_ifs
      · exact List.mem_append_left _ hx
      · exact hx
    · intro a ha
      refine (ih (solNftStep s pr decs acc p)).2 a ?_
      unfold solNftStep
      dsimp only
      split_ifs
      · exact List.mem_append_left _ ha
      · exact ha

theorem solNftFold_mem (s : String) (pr : Option String)
    (decs : List (String × Int)) :
    ∀ (L : List (String × ℚ)) (acc : List String × List Action)
      (m : String) (δ : ℚ),
      (m, δ) ∈ L → alGet decs m 0 = 0 → |δ| = 1 →
      m ∈ (List.foldl (solNftStep s pr decs) acc L).1 ∧
      solNftAction s pr m δ ∈ (List.foldl (solNftStep s pr decs) acc L).2 := by
  intro L
  induction L with
  | nil =>
    intro acc m δ h _ _
    exact absurd h (List.not_mem_nil _)
  | cons p ps ih =>
    intro acc m δ hmem hdec habs
    rw [List.foldl_cons]
    rcases List.mem_cons.mp hmem with he | hm
    · have hstep : solNftStep s pr decs acc p =
          (acc.1 ++ [m], acc.2 ++ [solNftAction s pr m δ]) := by
        rw [← he]
        unfold solNftStep
        dsimp only
        rw [if_pos ⟨hdec, habs⟩]
      rw [hstep]
      constructor
      · exact (solNftFold_mono s pr decs ps _).1 m
          (List.mem_append_right _ (List.mem_singleton.mpr rfl))
      · exact (solNftFold_mono s pr decs ps _).2 _
          (List.mem_append_right _ (List.mem_singleton.mpr rfl))
    · exact ih _ m δ hm hdec habs

theorem mem_ite_append_right {pre nft fb : List Action} {a : Action}
    (h : a ∈ nft) :
    a ∈ (if pre ++ nft = [] then fb else pre ++ nft) := by
  have hne : pre ++ nft ≠ [] := by
    intro e
    rcases List.append_eq_nil.mp e with ⟨_, e2⟩
    subst e2
    exact List.not_mem_nil a h
  rw [if_neg hne]
  exact List.mem_append_right _ h

/-- C5 (amended): a mint with recorded decimals 0 whose accumulated delta
has absolute value exactly 1.0 is removed from the generic delta map and
produces one `nft_transfer` action (negative delta sets `token_in` and
`from_` to the acting account, positive delta sets `token_out` and `to`)
before swap/transfer classification runs on the remaining deltas. -/
theorem claim_C5_nft_pullout (raw : RawTx) (m : String) (d : ℚ)
    (h1 : solSigner raw ≠ "") (h2 : is_vote_transaction raw = false)
    (hmem : (m, d) ∈ solMintDeltas raw)
    (hdec : alGet (solMintDecimals raw) m 0 = 0)
    (habs : |d| = 1) :
    m ∈ solNftMints raw ∧
    (∀ p ∈ solDeltasAfterNft raw, p.1 ≠ m) ∧
    (∃ a ∈ classify_solana_actions raw,
      a = solNftAction (solSigner raw) (identify_protocol_sol raw) m d ∧
      a.type = .nft_transfer ∧
      (d < 0 → a.from_ = some (solSigner raw) ∧
        a.token_in =
          some { address := m, symbol := "NFT", amount := "1", decimals := 0 }) ∧
      (0 < d → a.to_ = some (solSigner raw) ∧
        a.token_out =
          some { address := m, symbol := "NFT", amount := "1", decimals := 0 })) := by
  have hpass := solNftFold_mem (solSigner raw) (identify_protocol_sol raw)
    (solMintDecimals raw) (solMintDeltas raw) ([], []) m d hmem hdec habs
  have hmints : m ∈ solNftMints raw := hpass.1
  have hact : solNftAction (solSigner raw) (identify_protocol_sol raw) m d ∈
      solNftActions raw := hpass.2
  refine ⟨hmints, ?_, ?_⟩
  · intro p hp
    have hf := (List.mem_filter.mp hp).2
    simp only [decide_eq_true_eq] at hf
    intro e
    exact hf (e ▸ hmints)
  · refine ⟨solNftAction (solSigner raw) (identify_protocol_sol raw) m d,
      ?_, rfl, rfl, ?_, ?_⟩
    · unfold classify_solana_actions
      dsimp only
      rw [if_neg h1, if_neg (by rw [h2]; exact Bool.false_ne_true)]
      exact mem_ite_append_right hact
    · intro hneg
      constructor
      · show (if d < 0 then some (solSigner raw) else none) =
          some (solSigner raw)
        rw [if_pos hneg]
      · show (if d < 0 then
            some ({ address := m, symbol := "NFT", amount := "1", decimals := 0 } : TokenInfo)
          else none) = _
        rw [if_pos hneg]
    · intro hpos
      constructor
      · show (if d > 0 then some (solSigner raw) else none) =
          some (solSigner raw)
        rw [if_pos hpos]
      · show (if d > 0 then
            some ({ address := m, symbol := "NFT", amount := "1", decimals := 0 } : TokenInfo)
          else none) = _
        rw [if_pos hpos]

theorem claim_C5_nft_pullout_witness :
    solSigner wC5nft ≠ "" ∧ is_vote_transaction wC5nft = false ∧
    ("M1", (1 : ℚ)) ∈ solMintDeltas wC5nft ∧
    alGet (solMintDecimals wC5nft) "M1" 0 = 0 ∧
    |(1 : ℚ)| = 1 ∧
    "M1" ∈ solNftMints wC5nft := by
  have hmem : ("M1", (1 : ℚ)) ∈ solMintDeltas wC5nft := by
    simp only [solMintDeltas, solAllKeys, solPreMap, solPostMap,
      solPreDecimals, solIngest, solGetOwner, solSigner, solKeyDelta,
      wC5nft, wC5tb1, alSet, alGet, resolveKey, List.find?, List.foldl]
    norm_num
  refine ⟨by decide, by decide, hmem, by decide, by norm_num, ?_⟩
  exact (claim_C5_nft_pullout wC5nft "M1" 1 (by decide) (by decide) hmem
    (by decide) (by norm_num)).1


/-- C5 (counterexample): in `wC5cex` the mint "M1" has recorded decimals 0
and accumulated delta 7/10, whose rounded absolute value equals 1; the
claim as stated then requires an `nft_transfer` and removal from the delta
map, but the code (which tests `abs(delta) == 1.0` exactly) keeps the mint
in the generic delta map and emits no `nft_transfer`. -/
theorem claim_C5_counterexample :
    alGet (solMintDecimals wC5cex) "M1" 0 = 0 ∧
    round |alGet (solMintDeltas wC5cex) "M1" 0| = 1 ∧
    solNftMints wC5cex = [] ∧
    alHasKey (solDeltasAfterNft wC5cex) "M1" = true ∧
    (classify_solana_actions wC5cex).all
      (fun a => decide (a.type ≠ .nft_transfer)) = true := by
  have habs : ¬(|(0:ℚ) + (7/10 - 0)| = 1) := by
    rw [abs_of_pos (by norm_num)]
    norm_num
  have habs7 : ¬(|(7:ℚ)/10| = 1) := by
    rw [abs_of_pos (by norm_num)]
    norm_num
  have hval : alGet (solMintDeltas wC5cex) "M1" 0 = 7/10 := by
    simp only [solMintDeltas, solAllKeys, solPreMap, solPostMap,
      solPreDecimals, solIngest, solGetOwner, solSigner, solKeyDelta,
      wC5cex, wC5tb, alSet, alGet, resolveKey, List.find?, List.foldl]
    norm_num
  have hmints : solNftMints wC5cex = [] := by
    simp only [solNftMints, solNftPass, solNftStep, solMintDeltas,
      solAllKeys, solPreMap, solPostMap, solPreDecimals, solMintDecimals,
      solIngest, solGetOwner, solSigner, solKeyDelta, identify_protocol_sol,
      KNOWN_PROGRAMS, wC5cex, wC5tb, alSet, alGet, resolveKey, List.find?,
      List.foldl]
    simp [habs, habs7]
  refine ⟨by decide, ?_, hmints, ?_, ?_⟩
  · rw [hval, abs_of_pos (by norm_num), round_eq]
    norm_num
  · unfold solDeltasAfterNft
    rw [hmints]
    simp only [solMintDeltas, solAllKeys, solPreMap, solPostMap,
      solPreDecimals, solIngest, solGetOwner, solSigner, solKeyDelta,
      wC5cex, wC5tb, alSet, alGet, alHasKey, resolveKey, List.find?,
      List.foldl]
    simp
  · simp only [classify_solana_actions, solNegative, solPositive,
      solDeltasFinal, solDeltasAfterNft, solNftMints, solNftActions,
      solNftPass, solNftStep, solNativeDelta, solMintDeltas, solAllKeys,
      solPreMap, solPostMap, solPreDecimals, solMintDecimals, solIngest,
      solGetOwner, solSigner, is_vote_transaction, identify_protocol_sol,
      KNOWN_PROGRAMS, VOTE_PROGRAM, wC5cex, wC5tb, alSet, alGet,
      solKeyDelta, resolveKey, List.find?, DUST, minByVal, maxByVal,
      List.foldl]
    norm_num [habs, habs7, minByVal, maxByVal]
    simp [List.findSome?]

end OnchainReceipt
